import Mathlib

/-! EE89x NDIR sensor driver: the E2 two-wire protocol engine.

A shallow embedding of `src/EE89x/EE89x.cpp`.

* The GPIO collaborator (`pinMode`, `digitalWrite`, `digitalRead`) and the
  busy-wait `busDelay` act on a `World`: the levels the data line will show at
  each successive `digitalRead` (the slave's behaviour), the number of reads
  done so far, and the log of pin events.  A second log keeps the order in
  which the bus primitives were entered.
* `unsigned char` values are natural numbers below 256; HIGH is `true` and LOW
  is `false`.
* The `while` loop of `readAByte` may run for ever, so it carries fuel: `none`
  means that the loop was still running when the fuel ran out.
* The two locals `_valueByte` and `_checkSumByte` of `readAByte` are declared
  without a value; their initial content is a parameter.
* The accessors return `float` in the source; here they return exact
  rationals.  Their `int` arithmetic has the 16 bits of the target the source
  names.
* The counter of `busDelay` is an `unsigned int` whose width is a parameter.
-/

namespace EE89x

/-! ## Definitions of the source -/

def DELAY_FACTOR : Nat := 20
def gSensorType_LBCmd : Nat := 0x11
def gSensorType_HBCmd : Nat := 0x41
def gSensorParameters_Cmd : Nat := 0x31
def gStatusByte_Cmd : Nat := 0x71
def gHumidity_LBCmd : Nat := 0x81
def gHumidity_HBCmd : Nat := 0x91
def gTemperature_LBCmd : Nat := 0xA1
def gTemperature_HBCmd : Nat := 0xB1
def gPressure_LBCmd : Nat := 0xC1
def gPressure_HBCmd : Nat := 0xD1
def gCO2average_LBCmd : Nat := 0xE1
def gCO2average_HBCmd : Nat := 0xF1

/-! ## The host platform -/

/-- Direction of a pin. -/
inductive PinMode where
  | INPUT
  | OUTPUT
  deriving DecidableEq, Repr

/-- Logic level HIGH. -/
abbrev HIGH : Bool := true

/-- Logic level LOW. -/
abbrev LOW : Bool := false

/-- One action on the platform, as seen from outside the driver. -/
inductive Event where
  | pinMode (pin : Int) (mode : PinMode)
  | digitalWrite (pin : Int) (level : Bool)
  | digitalRead (pin : Int) (level : Bool)
  | busDelay (count : Nat)
  deriving DecidableEq, Repr

/-- Entry into one of the bus primitives. -/
inductive Call where
  | busStart
  | busStop
  | sendByte (value : Nat)
  | readByte
  | checkAck
  | sendACK
  | sendNAK
  deriving DecidableEq, Repr

/-- The platform and the bus: `input n` is the level the `n`-th `digitalRead`
of a call sequence finds, `nreads` the number of reads done, `events` the pin
actions so far (oldest first), `calls` the primitives entered so far. -/
structure World where
  input : Nat → Bool
  nreads : Nat
  events : List Event
  calls : List Call

/-- A world in which nothing has happened yet, for a given slave behaviour. -/
def World.init (input : Nat → Bool) : World := ⟨input, 0, [], []⟩

def World.emit (w : World) (e : Event) : World := { w with events := w.events ++ [e] }

def World.enter (w : World) (c : Call) : World := { w with calls := w.calls ++ [c] }

def pinMode (pin : Int) (mode : PinMode) (w : World) : World :=
  w.emit (Event.pinMode pin mode)

def digitalWrite (pin : Int) (level : Bool) (w : World) : World :=
  w.emit (Event.digitalWrite pin level)

def digitalRead (pin : Int) (w : World) : Bool × World :=
  (w.input w.nreads,
    { (w.emit (Event.digitalRead pin (w.input w.nreads))) with nreads := w.nreads + 1 })

/-! ## Private methods -/

/-- The busy wait of `busDelay`: it changes no pin, only time passes. -/
def busDelay (count : Nat) (w : World) : World :=
  w.emit (Event.busDelay count)

/-- Start bit. -/
def busStart (dataPin clockPin : Int) (w : World) : World :=
  let w := w.enter Call.busStart
  let w := pinMode dataPin PinMode.OUTPUT w
  let w := pinMode clockPin PinMode.OUTPUT w
  let w := digitalWrite dataPin HIGH w
  let w := digitalWrite clockPin HIGH w
  let w := busDelay 30 w
  let w := digitalWrite dataPin LOW w
  busDelay 30 w

/-- Stop bit. -/
def busStop (dataPin clockPin : Int) (w : World) : World :=
  let w := w.enter Call.busStop
  let w := pinMode dataPin PinMode.OUTPUT w
  let w := pinMode clockPin PinMode.OUTPUT w
  let w := digitalWrite clockPin LOW w
  let w := busDelay 20 w
  let w := digitalWrite dataPin LOW w
  let w := busDelay 20 w
  let w := digitalWrite clockPin HIGH w
  let w := busDelay 20 w
  digitalWrite dataPin HIGH w

/-- One turn of the `for` loop of `sendByte`. -/
def sendBit (value mask : Nat) (dataPin clockPin : Int) (w : World) : World :=
  let w := pinMode dataPin PinMode.OUTPUT w
  let w := pinMode clockPin PinMode.OUTPUT w
  let w := digitalWrite clockPin LOW w
  let w := busDelay 10 w
  let w := if (value &&& mask) ≠ 0 then digitalWrite dataPin HIGH w
    else digitalWrite dataPin LOW w
  let w := busDelay 20 w
  let w := digitalWrite clockPin HIGH w
  let w := busDelay 30 w
  digitalWrite clockPin LOW w

set_option linter.unusedVariables false in
/-- The loop `for (mask = ...; mask > 0; mask >>= 1)` of `sendByte`. -/
def sendByteLoop (value mask : Nat) (dataPin clockPin : Int) (w : World) : World :=
  if h : mask > 0 then
    sendByteLoop value (mask >>> 1) dataPin clockPin (sendBit value mask dataPin clockPin w)
  else w
termination_by mask
decreasing_by
  rw [Nat.shiftRight_eq_div_pow]
  exact Nat.div_lt_self h (by norm_num)

/-- Send a byte. -/
def sendByte (value : Nat) (dataPin clockPin : Int) (w : World) : World :=
  let w := w.enter (Call.sendByte value)
  let w := sendByteLoop value 0x80 dataPin clockPin w
  digitalWrite dataPin HIGH w

/-- One turn of the `for` loop of `readByte`. -/
def readBit (data_in mask : Nat) (dataPin clockPin : Int) (w : World) : Nat × World :=
  let w := pinMode clockPin PinMode.OUTPUT w
  let w := digitalWrite clockPin LOW w
  let w := busDelay 30 w
  let w := digitalWrite clockPin HIGH w
  let w := busDelay 15 w
  let w := pinMode dataPin PinMode.INPUT w
  let (level, w) := digitalRead dataPin w
  let data_in := if level then data_in ||| mask else data_in
  let w := busDelay 15 w
  let w := digitalWrite clockPin LOW w
  (data_in, w)

set_option linter.unusedVariables false in
/-- The loop `for (mask = ...; mask > 0; mask >>= 1)` of `readByte`. -/
def readByteLoop (data_in mask : Nat) (dataPin clockPin : Int) (w : World) : Nat × World :=
  if h : mask > 0 then
    let (data_in, w) := readBit data_in mask dataPin clockPin w
    readByteLoop data_in (mask >>> 1) dataPin clockPin w
  else (data_in, w)
termination_by mask
decreasing_by
  rw [Nat.shiftRight_eq_div_pow]
  exact Nat.div_lt_self h (by norm_num)

/-- Read byte. -/
def readByte (dataPin clockPin : Int) (w : World) : Nat × World :=
  let w := w.enter Call.readByte
  readByteLoop 0x00 0x80 dataPin clockPin w

/-- Check ACK: the level sampled on the data line. -/
def checkAck (dataPin clockPin : Int) (w : World) : Bool × World :=
  let w := w.enter Call.checkAck
  let w := pinMode clockPin PinMode.OUTPUT w
  let w := digitalWrite clockPin LOW w
  let w := busDelay 30 w
  let w := digitalWrite clockPin HIGH w
  let w := busDelay 15 w
  let w := pinMode dataPin PinMode.INPUT w
  let (input, w) := digitalRead dataPin w
  let w := busDelay 15 w
  (input, w)

/-- Send ACK. -/
def sendACK (dataPin clockPin : Int) (w : World) : World :=
  let w := w.enter Call.sendACK
  let w := pinMode dataPin PinMode.OUTPUT w
  let w := pinMode clockPin PinMode.OUTPUT w
  let w := digitalWrite clockPin LOW w
  let w := busDelay 15 w
  let w := digitalWrite dataPin LOW w
  let w := busDelay 15 w
  let w := digitalWrite clockPin HIGH w
  let w := busDelay 28 w
  let w := digitalWrite clockPin LOW w
  let w := busDelay 2 w
  digitalWrite dataPin HIGH w

/-- Send NAK. -/
def sendNAK (dataPin clockPin : Int) (w : World) : World :=
  let w := w.enter Call.sendNAK
  let w := pinMode dataPin PinMode.OUTPUT w
  let w := pinMode clockPin PinMode.OUTPUT w
  let w := digitalWrite clockPin LOW w
  let w := busDelay 15 w
  let w := digitalWrite dataPin HIGH w
  let w := busDelay 15 w
  let w := digitalWrite clockPin HIGH w
  let w := busDelay 30 w
  digitalWrite clockPin HIGH w

/-- The locals of `readAByte`. -/
structure Locals where
  valueByte : Nat
  checkSumByte : Nat
  statusByte : Int
  ntrysByte : Int
  deriving DecidableEq, Repr

/-- The body of the `while` loop of `readAByte`: one transaction attempt and
the checksum test that follows it. -/
def attempt (gBytecmd : Nat) (dataPin clockPin : Int) (l : Locals) (w : World) :
    Locals × World :=
  let w := busStart dataPin clockPin w
  let w := sendByte gBytecmd dataPin clockPin w
  let (ack, w) := checkAck dataPin clockPin w
  let (l, w) :=
    if ack = false then
      let (valueByte, w) := readByte dataPin clockPin w
      let w := sendACK dataPin clockPin w
      let (checkSumByte, w) := readByte dataPin clockPin w
      let w := sendNAK dataPin clockPin w
      let w := busStop dataPin clockPin w
      ({ l with valueByte := valueByte, checkSumByte := checkSumByte }, w)
    else
      let l := { l with ntrysByte := l.ntrysByte + 1 }
      let w := busStop dataPin clockPin w
      (l, w)
  if l.checkSumByte ≠ (l.valueByte + gBytecmd) % 0x100 then
    ({ l with valueByte := 0xFF }, w)
  else
    ({ l with statusByte := 0 }, w)

/-- The `while (_statusByte && _ntrysByte < 3)` loop of `readAByte` followed
by its `return`; each turn of the loop takes one unit of fuel. -/
def readAByteLoop (gBytecmd : Nat) (dataPin clockPin : Int) :
    Nat → Locals → World → Option (Nat × World)
  | fuel, l, w =>
    if l.statusByte ≠ 0 ∧ l.ntrysByte < 3 then
      match fuel with
      | 0 => none
      | fuel + 1 =>
        let (l, w) := attempt gBytecmd dataPin clockPin l w
        readAByteLoop gBytecmd dataPin clockPin fuel l w
    else some (l.valueByte, w)

/-- Command to read a measurement byte.  `valueByte0` and `checkSumByte0` are
what the two locals declared without a value hold on entry. -/
def readAByte (fuel : Nat) (valueByte0 checkSumByte0 : Nat) (gBytecmd : Nat)
    (dataPin clockPin : Int) (w : World) : Option (Nat × World) :=
  readAByteLoop gBytecmd dataPin clockPin fuel
    { valueByte := valueByte0, checkSumByte := checkSumByte0, statusByte := 1, ntrysByte := 0 } w

/-- Number of transaction attempts in a log of calls: each attempt opens with
one `busStart`. -/
def attempts (calls : List Call) : Nat := calls.count Call.busStart


/-! ## Public methods

The accessors reach the bus only through `readAByte (cmd, _dataPin, _clockPin)`.
They are written over an arbitrary command engine: a function that, for a
command and a state of the bus, either does not return (`none`) or returns a
byte and the next state.

The source names its target in the comment of `DELAY_FACTOR`: a 16 MHz
Arduino, whose `int` and `unsigned int` have 16 bits.  The products and sums
the accessors form from two bytes are `int` operations: each one is followed
by `wrapInt`, the two's complement value that fits the width. -/

/-- Width of `int` and `unsigned int` on the 16 MHz Arduino the source names. -/
def INT_BITS : Nat := 16

/-- The value an `int` holds after an operation whose exact result is `x`:
`x` itself when it fits, else `x` wrapped around in two's complement. -/
def wrapInt (x : Int) : Int := (x + 2 ^ (INT_BITS - 1)) % 2 ^ INT_BITS - 2 ^ (INT_BITS - 1)

/-- The value an `unsigned int` holds when it is assigned the `int` `x`. -/
def wrapUInt (x : Int) : Nat := (x % 2 ^ INT_BITS).toNat

/-- A command engine over bus states `σ`. -/
abbrev Engine (σ : Type) := Nat → σ → Option (Nat × σ)

/-- The engine of the driver: `readAByte` on the two pins of the instance. -/
def driver (fuel valueByte0 checkSumByte0 : Nat) (dataPin clockPin : Int) : Engine World :=
  fun cmd w => readAByte fuel valueByte0 checkSumByte0 cmd dataPin clockPin w

/-- Reads the measurement status byte. -/
def readStatusbyte {σ : Type} (readAByte : Engine σ) (s : σ) : Option (Nat × σ) :=
  readAByte gStatusByte_Cmd s

/-- Reads the average CO2 value. -/
def readCO2average {σ : Type} (readAByte : Engine σ) (s : σ) : Option (ℚ × σ) := do
  let co2average : ℚ := -1
  let (co2_LB, s) ← readAByte gCO2average_LBCmd s
  let (status, s) ← readAByte gStatusByte_Cmd s
  if status = 0 then
    let (co2_HB, s) ← readAByte gCO2average_HBCmd s
    let (status, s) ← readAByte gStatusByte_Cmd s
    if status = 0 then
      pure (((wrapInt (wrapInt (co2_HB * 256) + co2_LB) : Int) : ℚ), s)
    else pure (co2average, s)
  else pure (co2average, s)

/-- Reads the current relative humidity value. -/
def readHumidity {σ : Type} (readAByte : Engine σ) (s : σ) : Option (ℚ × σ) := do
  let humidity : ℚ := -1
  let (humidity_LB, s) ← readAByte gHumidity_LBCmd s
  let (status, s) ← readAByte gStatusByte_Cmd s
  if status = 0 then
    let (humidity_HB, s) ← readAByte gHumidity_HBCmd s
    let (status, s) ← readAByte gStatusByte_Cmd s
    if status = 0 then
      pure (((wrapInt (wrapInt (humidity_HB * 256) + humidity_LB) : Int) : ℚ) / 100.0, s)
    else pure (humidity, s)
  else pure (humidity, s)

/-- Reads the current temperature value. -/
def readTemperature {σ : Type} (readAByte : Engine σ) (s : σ) : Option (ℚ × σ) := do
  let temperature : ℚ := -300
  let (temperature_LB, s) ← readAByte gTemperature_LBCmd s
  let (status, s) ← readAByte gStatusByte_Cmd s
  if status = 0 then
    let (temperature_HB, s) ← readAByte gTemperature_HBCmd s
    let (status, s) ← readAByte gStatusByte_Cmd s
    if status = 0 then
      pure (((wrapInt (wrapInt (temperature_HB * 256) + temperature_LB) : Int) : ℚ) / 100.0
        - 273.15, s)
    else pure (temperature, s)
  else pure (temperature, s)

/-- Reads the current ambient pressure value. -/
def readPressure {σ : Type} (readAByte : Engine σ) (s : σ) : Option (ℚ × σ) := do
  let pressure : ℚ := -1
  let (pressure_LB, s) ← readAByte gPressure_LBCmd s
  let (status, s) ← readAByte gStatusByte_Cmd s
  if status = 0 then
    let (pressure_HB, s) ← readAByte gPressure_HBCmd s
    let (status, s) ← readAByte gStatusByte_Cmd s
    if status = 0 then
      pure (((wrapInt (wrapInt (pressure_HB * 256) + pressure_LB) : Int) : ℚ) / 10.0, s)
    else pure (pressure, s)
  else pure (pressure, s)

/-! ## Vocabulary of the statements -/

/-- The four measured quantities that have a two-byte accessor. -/
inductive Quantity where
  | co2
  | humidity
  | temperature
  | pressure
  deriving DecidableEq, Repr

/-- The accessor of a quantity. -/
def Quantity.read {σ : Type} : Quantity → Engine σ → σ → Option (ℚ × σ)
  | Quantity.co2 => readCO2average
  | Quantity.humidity => readHumidity
  | Quantity.temperature => readTemperature
  | Quantity.pressure => readPressure

/-- The low-byte command an accessor issues. -/
def Quantity.lowCmd : Quantity → Nat
  | Quantity.co2 => gCO2average_LBCmd
  | Quantity.humidity => gHumidity_LBCmd
  | Quantity.temperature => gTemperature_LBCmd
  | Quantity.pressure => gPressure_LBCmd

/-- The high-byte command an accessor issues. -/
def Quantity.highCmd : Quantity → Nat
  | Quantity.co2 => gCO2average_HBCmd
  | Quantity.humidity => gHumidity_HBCmd
  | Quantity.temperature => gTemperature_HBCmd
  | Quantity.pressure => gPressure_HBCmd

/-- Issue a list of commands to an engine, one after the other: the bytes it
returns, in order, and the state it ends in. -/
def issue {σ : Type} (engine : Engine σ) : List Nat → σ → Option (List Nat × σ)
  | [], s => some ([], s)
  | cmd :: cmds, s =>
    match engine cmd s with
    | none => none
    | some (b, s) =>
      match issue engine cmds s with
      | none => none
      | some (bs, s) => some (b :: bs, s)

/-- An engine that also keeps the list of the commands it was given. -/
def recording {σ : Type} (engine : Engine σ) : Engine (List Nat × σ) :=
  fun cmd s =>
    match engine cmd s.2 with
    | none => none
    | some (b, s') => some (b, (s.1 ++ [cmd], s'))

/-- A simulated engine: it answers the commands with the bytes of a script. -/
def replay : Engine (List Nat)
  | _, [] => none
  | _, b :: rest => some (b, rest)

/-- The slave puts byte `b` on the data line, most significant bit first, for
the eight reads that start at read number `n`. -/
def Delivers (input : Nat → Bool) (n b : Nat) : Prop :=
  ∀ k, k < 8 → input (n + k) = b.testBit (7 - k)

instance (input : Nat → Bool) (n b : Nat) : Decidable (Delivers input n b) := by
  unfold Delivers; infer_instance

/-- The data-line levels in force at the rising edges of the clock in a log of
pin events; `data` and `clock` are the levels before the log starts. -/
def clockHighLevels (dataPin clockPin : Int) : Bool → Bool → List Event → List Bool
  | _, _, [] => []
  | data, clock, Event.digitalWrite pin level :: es =>
    if pin = clockPin then
      if level = HIGH ∧ clock = LOW then data :: clockHighLevels dataPin clockPin data HIGH es
      else clockHighLevels dataPin clockPin data level es
    else if pin = dataPin then clockHighLevels dataPin clockPin level clock es
    else clockHighLevels dataPin clockPin data clock es
  | data, clock, _ :: es => clockHighLevels dataPin clockPin data clock es

/-! ## What each primitive adds to the logs -/

def busStartEvents (dataPin clockPin : Int) : List Event :=
  [Event.pinMode dataPin PinMode.OUTPUT, Event.pinMode clockPin PinMode.OUTPUT,
   Event.digitalWrite dataPin HIGH, Event.digitalWrite clockPin HIGH, Event.busDelay 30,
   Event.digitalWrite dataPin LOW, Event.busDelay 30]

def busStopEvents (dataPin clockPin : Int) : List Event :=
  [Event.pinMode dataPin PinMode.OUTPUT, Event.pinMode clockPin PinMode.OUTPUT,
   Event.digitalWrite clockPin LOW, Event.busDelay 20, Event.digitalWrite dataPin LOW,
   Event.busDelay 20, Event.digitalWrite clockPin HIGH, Event.busDelay 20,
   Event.digitalWrite dataPin HIGH]

def sendBitEvents (value mask : Nat) (dataPin clockPin : Int) : List Event :=
  [Event.pinMode dataPin PinMode.OUTPUT, Event.pinMode clockPin PinMode.OUTPUT,
   Event.digitalWrite clockPin LOW, Event.busDelay 10,
   Event.digitalWrite dataPin (decide ((value &&& mask) ≠ 0)), Event.busDelay 20,
   Event.digitalWrite clockPin HIGH, Event.busDelay 30, Event.digitalWrite clockPin LOW]

def sendByteEvents (value : Nat) (dataPin clockPin : Int) : List Event :=
  sendBitEvents value 0x80 dataPin clockPin ++ sendBitEvents value 0x40 dataPin clockPin ++
  sendBitEvents value 0x20 dataPin clockPin ++ sendBitEvents value 0x10 dataPin clockPin ++
  sendBitEvents value 0x08 dataPin clockPin ++ sendBitEvents value 0x04 dataPin clockPin ++
  sendBitEvents value 0x02 dataPin clockPin ++ sendBitEvents value 0x01 dataPin clockPin ++
  [Event.digitalWrite dataPin HIGH]

def readBitEvents (dataPin clockPin : Int) (level : Bool) : List Event :=
  [Event.pinMode clockPin PinMode.OUTPUT, Event.digitalWrite clockPin LOW, Event.busDelay 30,
   Event.digitalWrite clockPin HIGH, Event.busDelay 15, Event.pinMode dataPin PinMode.INPUT,
   Event.digitalRead dataPin level, Event.busDelay 15, Event.digitalWrite clockPin LOW]

def readByteEvents (dataPin clockPin : Int) (input : Nat → Bool) (n : Nat) : List Event :=
  readBitEvents dataPin clockPin (input n) ++ readBitEvents dataPin clockPin (input (n + 1)) ++
  readBitEvents dataPin clockPin (input (n + 2)) ++ readBitEvents dataPin clockPin (input (n + 3)) ++
  readBitEvents dataPin clockPin (input (n + 4)) ++ readBitEvents dataPin clockPin (input (n + 5)) ++
  readBitEvents dataPin clockPin (input (n + 6)) ++ readBitEvents dataPin clockPin (input (n + 7))

def checkAckEvents (dataPin clockPin : Int) (level : Bool) : List Event :=
  [Event.pinMode clockPin PinMode.OUTPUT, Event.digitalWrite clockPin LOW, Event.busDelay 30,
   Event.digitalWrite clockPin HIGH, Event.busDelay 15, Event.pinMode dataPin PinMode.INPUT,
   Event.digitalRead dataPin level, Event.busDelay 15]

def sendACKEvents (dataPin clockPin : Int) : List Event :=
  [Event.pinMode dataPin PinMode.OUTPUT, Event.pinMode clockPin PinMode.OUTPUT,
   Event.digitalWrite clockPin LOW, Event.busDelay 15, Event.digitalWrite dataPin LOW,
   Event.busDelay 15, Event.digitalWrite clockPin HIGH, Event.busDelay 28,
   Event.digitalWrite clockPin LOW, Event.busDelay 2, Event.digitalWrite dataPin HIGH]

def sendNAKEvents (dataPin clockPin : Int) : List Event :=
  [Event.pinMode dataPin PinMode.OUTPUT, Event.pinMode clockPin PinMode.OUTPUT,
   Event.digitalWrite clockPin LOW, Event.busDelay 15, Event.digitalWrite dataPin HIGH,
   Event.busDelay 15, Event.digitalWrite clockPin HIGH, Event.busDelay 30,
   Event.digitalWrite clockPin HIGH]

/-- What `data_in |= mask` under `if (digitalRead (_dataPin))` leaves in `data_in`. -/
def orBit (data_in mask : Nat) (level : Bool) : Nat :=
  if level then data_in ||| mask else data_in

/-- The byte the loop of `readByte` builds from the eight levels
`input n`, ..., `input (n + 7)`. -/
def assemble (input : Nat → Bool) (n : Nat) : Nat :=
  orBit (orBit (orBit (orBit (orBit (orBit (orBit (orBit 0x00 0x80 (input n))
    0x40 (input (n + 1))) 0x20 (input (n + 2))) 0x10 (input (n + 3)))
    0x08 (input (n + 4))) 0x04 (input (n + 5))) 0x02 (input (n + 6))) 0x01 (input (n + 7))

/-- The checksum test that closes a turn of the loop of `readAByte`. -/
def verdict (gBytecmd : Nat) (l : Locals) : Locals :=
  if l.checkSumByte ≠ (l.valueByte + gBytecmd) % 0x100 then { l with valueByte := 0xFF }
  else { l with statusByte := 0 }

/-- Pin events of an attempt whose command is acknowledged, with `n` reads
done before it. -/
def ackedEvents (gBytecmd : Nat) (dataPin clockPin : Int) (input : Nat → Bool) (n : Nat) :
    List Event :=
  busStartEvents dataPin clockPin ++ sendByteEvents gBytecmd dataPin clockPin ++
  checkAckEvents dataPin clockPin LOW ++ readByteEvents dataPin clockPin input (n + 1) ++
  sendACKEvents dataPin clockPin ++ readByteEvents dataPin clockPin input (n + 9) ++
  sendNAKEvents dataPin clockPin ++ busStopEvents dataPin clockPin

/-- Pin events of an attempt whose command is not acknowledged. -/
def refusedEvents (gBytecmd : Nat) (dataPin clockPin : Int) : List Event :=
  busStartEvents dataPin clockPin ++ sendByteEvents gBytecmd dataPin clockPin ++
  checkAckEvents dataPin clockPin HIGH ++ busStopEvents dataPin clockPin

/-- Primitives entered by an attempt whose command is acknowledged. -/
def ackedCalls (gBytecmd : Nat) : List Call :=
  [Call.busStart, Call.sendByte gBytecmd, Call.checkAck, Call.readByte, Call.sendACK,
   Call.readByte, Call.sendNAK, Call.busStop]

/-- Primitives entered by an attempt whose command is not acknowledged. -/
def refusedCalls (gBytecmd : Nat) : List Call :=
  [Call.busStart, Call.sendByte gBytecmd, Call.checkAck, Call.busStop]

/-! ## Worlds and buses used in the statements -/

/-- A slave that acknowledges and answers the status command with value
0x00 and checksum 0x71: levels HIGH at reads 10, 11, 12 and 16 only. -/
def validStatusAnswer : Nat → Bool := fun n => decide (n = 10 ∨ n = 11 ∨ n = 12 ∨ n = 16)

/-- The world after an acknowledged attempt. -/
def World.afterAcked (w : World) (gBytecmd : Nat) (dataPin clockPin : Int) : World :=
  { w with nreads := w.nreads + 17,
           events := w.events ++ ackedEvents gBytecmd dataPin clockPin w.input w.nreads,
           calls := w.calls ++ ackedCalls gBytecmd }

/-- The world after an unacknowledged attempt. -/
def World.afterRefused (w : World) (gBytecmd : Nat) (dataPin clockPin : Int) : World :=
  { w with nreads := w.nreads + 1,
           events := w.events ++ refusedEvents gBytecmd dataPin clockPin,
           calls := w.calls ++ refusedCalls gBytecmd }


/-- A slave that acknowledges every attempt and answers 0x00 with checksum
0x00, except that on the second attempt the checksum is 0x71. -/
def retryOnceBus : Nat → Bool := fun n => decide (n = 27 ∨ n = 28 ∨ n = 29 ∨ n = 33)

/-- A slave that acknowledges every attempt and answers 0x00 with checksum
0x00, except that on the third attempt the checksum is 0x71. -/
def retryTwiceBus : Nat → Bool := fun n => decide (n = 44 ∨ n = 45 ∨ n = 46 ∨ n = 50)

/-- The common shape of the four two-byte accessors: low byte, status, high
byte, status, then the conversion of the `int` `(HB*256) + LB`. -/
def readTwoBytes {σ : Type} (lowCmd highCmd : Nat) (sentinel : ℚ) (convert : ℚ → ℚ)
    (readAByte : Engine σ) (s : σ) : Option (ℚ × σ) := do
  let (lb, s) ← readAByte lowCmd s
  let (status, s) ← readAByte gStatusByte_Cmd s
  if status = 0 then
    let (hb, s) ← readAByte highCmd s
    let (status, s) ← readAByte gStatusByte_Cmd s
    if status = 0 then
      pure (convert ((wrapInt (wrapInt (hb * 256) + lb) : Int) : ℚ), s)
    else pure (sentinel, s)
  else pure (sentinel, s)

/-- The sentinel an accessor starts from. -/
def Quantity.sentinel : Quantity → ℚ
  | Quantity.temperature => -300
  | _ => -1

/-- The conversion an accessor applies to the `int` `(HB*256) + LB`. -/
def Quantity.convert : Quantity → ℚ → ℚ
  | Quantity.co2 => fun raw => raw
  | Quantity.humidity => fun raw => raw / 100.0
  | Quantity.temperature => fun raw => raw / 100.0 - 273.15
  | Quantity.pressure => fun raw => raw / 10.0

/-- A line that repeats the bits of 0xA5, most significant first. -/
def loopbackA5 : Nat → Bool := fun n => decide (n = 0 ∨ n = 2 ∨ n = 5 ∨ n = 7)

/-! ## Public methods that return integers -/

/-- Reads the sensor type.  The sum is an `int`, it is held in an
`unsigned int` and returned as an `int`. -/
def readSensortype {σ : Type} (readAByte : Engine σ) (s : σ) : Option (Int × σ) := do
  let (group_LB, s) ← readAByte gSensorType_LBCmd s
  let (group_HB, s) ← readAByte gSensorType_HBCmd s
  let sensorGroup : Nat := wrapUInt (wrapInt (wrapInt (group_HB * 256) + group_LB))
  pure (wrapInt sensorGroup, s)

/-- Reads the supported parameters of the sensor.  The two shifts act on an
`unsigned char`: the left shift drops what leaves the eight bits. -/
def readSensorparameters {σ : Type} (readAByte : Engine σ) (s : σ) : Option (Nat × σ) := do
  let (parameters, s) ← readAByte gSensorParameters_Cmd s
  if parameters = 0xFF then
    pure (0x00, s)
  else
    let parameters := (parameters <<< 4) % 0x100
    let parameters := parameters >>> 4
    pure (parameters, s)

/-! ## The state of the pins, read off the log -/

/-- The direction a pin was last given in a log of pin events. -/
def lastMode (pin : Int) (events : List Event) : Option PinMode :=
  events.foldl
    (fun acc e =>
      match e with
      | Event.pinMode p m => if p = pin then some m else acc
      | _ => acc)
    none

/-- The level last written to a pin in a log of pin events. -/
def lastWrite (pin : Int) (events : List Event) : Option Bool :=
  events.foldl
    (fun acc e =>
      match e with
      | Event.digitalWrite p level => if p = pin then some level else acc
      | _ => acc)
    none

/-- The bus is idle: both lines are outputs and both were last driven HIGH. -/
def Idle (dataPin clockPin : Int) (events : List Event) : Prop :=
  lastMode dataPin events = some PinMode.OUTPUT ∧ lastMode clockPin events = some PinMode.OUTPUT ∧
  lastWrite dataPin events = some HIGH ∧ lastWrite clockPin events = some HIGH

instance (dataPin clockPin : Int) (events : List Event) :
    Decidable (Idle dataPin clockPin events) := by
  unfold Idle; infer_instance

/-- The public methods of the driver. -/
inductive PublicCall where
  | readSensortype
  | readSensorparameters
  | readStatusbyte
  | readCO2average
  | readHumidity
  | readTemperature
  | readPressure
  deriving DecidableEq, Repr

/-- The state in which a public method leaves the bus when it returns. -/
def PublicCall.finalState {σ : Type} (call : PublicCall) (engine : Engine σ) (s : σ) :
    Option σ :=
  match call with
  | PublicCall.readSensortype => (EE89x.readSensortype engine s).map Prod.snd
  | PublicCall.readSensorparameters => (EE89x.readSensorparameters engine s).map Prod.snd
  | PublicCall.readStatusbyte => (EE89x.readStatusbyte engine s).map Prod.snd
  | PublicCall.readCO2average => (EE89x.readCO2average engine s).map Prod.snd
  | PublicCall.readHumidity => (EE89x.readHumidity engine s).map Prod.snd
  | PublicCall.readTemperature => (EE89x.readTemperature engine s).map Prod.snd
  | PublicCall.readPressure => (EE89x.readPressure engine s).map Prod.snd
/-- The calls of a run of attempts, given the level `checkAck` sampled in
each of them. -/
def attemptCalls (gBytecmd : Nat) : List Bool → List Call
  | [] => []
  | ack :: rest =>
    (if ack = LOW then ackedCalls gBytecmd else refusedCalls gBytecmd) ++
      attemptCalls gBytecmd rest

/-- The levels written to the clock pin in a log of pin events, in order. -/
def clockWrites (clockPin : Int) : List Event → List Bool
  | [] => []
  | Event.digitalWrite pin level :: es =>
    if pin = clockPin then level :: clockWrites clockPin es else clockWrites clockPin es
  | _ :: es => clockWrites clockPin es

/-- Every write to the data pin in a log of pin events happens while the
clock is LOW; `clock` is the clock level before the log starts. -/
def dataWrittenOnlyWhileClockLow (dataPin clockPin : Int) : Bool → List Event → Bool
  | _, [] => true
  | clock, Event.digitalWrite pin level :: es =>
    if pin = clockPin then dataWrittenOnlyWhileClockLow dataPin clockPin level es
    else if pin = dataPin then
      (clock == LOW) && dataWrittenOnlyWhileClockLow dataPin clockPin clock es
    else dataWrittenOnlyWhileClockLow dataPin clockPin clock es
  | clock, _ :: es => dataWrittenOnlyWhileClockLow dataPin clockPin clock es

/-- A slave that does not acknowledge the first three attempts, then
acknowledges and answers three commands: 0x71 with value 0x00 and checksum
0x71, 0x91 with value 0x01 and checksum 0x92, 0x71 with value 0x00 and
checksum 0x71. -/
def failedLowByteBus : Nat → Bool := fun n =>
  decide (n ∈ [0, 1, 2, 13, 14, 15, 19, 28, 29, 32, 35, 47, 48, 49, 53])

/-! ## The counter of `busDelay`

`busDelay` of the world above records the call; the arithmetic of its body is
modelled here on an `unsigned int` of `bits` bits. -/

/-- The value `--count2` leaves in an `unsigned int` of `bits` bits: one less,
or the largest value when `count2` was 0. -/
def predecrement (bits count2 : Nat) : Nat := (count2 + 2 ^ bits - 1) % 2 ^ bits

/-- What a run of the loop of `busDelay` did: how many times `--count2` was
evaluated, how many times the empty body ran, and whether the counter wrapped
around from 0. -/
structure DelayRun where
  decrements : Nat
  bodies : Nat
  wrapped : Bool
  deriving DecidableEq, Repr

/-- The loop `while (-- count2 != 0);` of `busDelay`; each evaluation of the
condition takes one unit of fuel. -/
def busDelayLoop (bits : Nat) : Nat → Nat → DelayRun → Option DelayRun
  | 0, _, _ => none
  | fuel + 1, count2, r =>
    let r := { r with decrements := r.decrements + 1, wrapped := r.wrapped || decide (count2 = 0) }
    let count2 := predecrement bits count2
    if count2 ≠ 0 then busDelayLoop bits fuel count2 { r with bodies := r.bodies + 1 }
    else some r

/-- The body of `busDelay (count)` on an `unsigned int` of `bits` bits. -/
def busDelaySteps (bits fuel count : Nat) : Option DelayRun :=
  let count2 := count % 2 ^ bits
  let count2 := (count2 * DELAY_FACTOR) % 2 ^ bits
  busDelayLoop bits fuel count2 { decrements := 0, bodies := 0, wrapped := false }

/-- The counts of the `busDelay` calls in a log of pin events, in order. -/
def delayCounts : List Event → List Nat
  | [] => []
  | Event.busDelay count :: es => count :: delayCounts es
  | _ :: es => delayCounts es

/-- The counts of all `busDelay` calls of the seven bus primitives, each run on
a fresh world. -/
def driverDelayCounts (value : Nat) (dataPin clockPin : Int) (input : Nat → Bool) : List Nat :=
  delayCounts (busStart dataPin clockPin (World.init input)).events ++
  delayCounts (busStop dataPin clockPin (World.init input)).events ++
  delayCounts (sendByte value dataPin clockPin (World.init input)).events ++
  delayCounts (readByte dataPin clockPin (World.init input)).2.events ++
  delayCounts (checkAck dataPin clockPin (World.init input)).2.events ++
  delayCounts (sendACK dataPin clockPin (World.init input)).events ++
  delayCounts (sendNAK dataPin clockPin (World.init input)).events

/-! ## The primitives, one by one -/

theorem busStart_eq (dataPin clockPin : Int) (w : World) :
    busStart dataPin clockPin w =
      { w with events := w.events ++ busStartEvents dataPin clockPin,
               calls := w.calls ++ [Call.busStart] } := by
  simp [busStart, busStartEvents, pinMode, digitalWrite, busDelay, World.emit, World.enter]

theorem busStop_eq (dataPin clockPin : Int) (w : World) :
    busStop dataPin clockPin w =
      { w with events := w.events ++ busStopEvents dataPin clockPin,
               calls := w.calls ++ [Call.busStop] } := by
  simp [busStop, busStopEvents, pinMode, digitalWrite, busDelay, World.emit, World.enter]

theorem sendBit_eq (value mask : Nat) (dataPin clockPin : Int) (w : World) :
    sendBit value mask dataPin clockPin w =
      { w with events := w.events ++ sendBitEvents value mask dataPin clockPin } := by
  by_cases h : (value &&& mask) = 0 <;>
    simp [sendBit, sendBitEvents, h, pinMode, digitalWrite, busDelay, World.emit]

theorem sendByte_eq (value : Nat) (dataPin clockPin : Int) (w : World) :
    sendByte value dataPin clockPin w =
      { w with events := w.events ++ sendByteEvents value dataPin clockPin,
               calls := w.calls ++ [Call.sendByte value] } := by
  unfold sendByte
  simp only [World.enter, digitalWrite, World.emit]
  iterate 9 rw [sendByteLoop]
  simp [sendBit_eq, sendByteEvents]

theorem readBit_eq (data_in mask : Nat) (dataPin clockPin : Int) (w : World) :
    readBit data_in mask dataPin clockPin w =
      (orBit data_in mask (w.input w.nreads),
       { w with nreads := w.nreads + 1,
                events := w.events ++ readBitEvents dataPin clockPin (w.input w.nreads) }) := by
  simp [readBit, readBitEvents, orBit, pinMode, digitalWrite, digitalRead, busDelay, World.emit]

theorem readByte_eq (dataPin clockPin : Int) (w : World) :
    readByte dataPin clockPin w =
      (assemble w.input w.nreads,
       { w with nreads := w.nreads + 8,
                events := w.events ++ readByteEvents dataPin clockPin w.input w.nreads,
                calls := w.calls ++ [Call.readByte] }) := by
  unfold readByte
  simp only [World.enter]
  iterate 8
    (rw [readByteLoop]
     simp only [readBit_eq, Nat.reduceShiftRight, Nat.reduceGT, reduceDIte, gt_iff_lt,
       Nat.ofNat_pos])
  rw [readByteLoop]
  simp [readByteEvents, assemble, Nat.add_assoc]

theorem checkAck_eq (dataPin clockPin : Int) (w : World) :
    checkAck dataPin clockPin w =
      (w.input w.nreads,
       { w with nreads := w.nreads + 1,
                events := w.events ++ checkAckEvents dataPin clockPin (w.input w.nreads),
                calls := w.calls ++ [Call.checkAck] }) := by
  simp [checkAck, checkAckEvents, pinMode, digitalWrite, digitalRead, busDelay, World.emit,
    World.enter]

theorem sendACK_eq (dataPin clockPin : Int) (w : World) :
    sendACK dataPin clockPin w =
      { w with events := w.events ++ sendACKEvents dataPin clockPin,
               calls := w.calls ++ [Call.sendACK] } := by
  simp [sendACK, sendACKEvents, pinMode, digitalWrite, busDelay, World.emit, World.enter]

theorem sendNAK_eq (dataPin clockPin : Int) (w : World) :
    sendNAK dataPin clockPin w =
      { w with events := w.events ++ sendNAKEvents dataPin clockPin,
               calls := w.calls ++ [Call.sendNAK] } := by
  simp [sendNAK, sendNAKEvents, pinMode, digitalWrite, busDelay, World.emit, World.enter]

/-! ## One attempt -/

theorem attempt_acked (gBytecmd : Nat) (dataPin clockPin : Int) (l : Locals) (w : World)
    (hack : w.input w.nreads = LOW) :
    attempt gBytecmd dataPin clockPin l w =
      (verdict gBytecmd { l with valueByte := assemble w.input (w.nreads + 1),
                                 checkSumByte := assemble w.input (w.nreads + 9) },
       { w with nreads := w.nreads + 17,
                events := w.events ++ ackedEvents gBytecmd dataPin clockPin w.input w.nreads,
                calls := w.calls ++ ackedCalls gBytecmd }) := by
  by_cases h : assemble w.input (w.nreads + 9) = (assemble w.input (w.nreads + 1) + gBytecmd) % 256
    <;> simp [attempt, busStart_eq, sendByte_eq, checkAck_eq, readByte_eq, sendACK_eq, sendNAK_eq,
      busStop_eq, hack, verdict, ackedEvents, ackedCalls, h, Nat.add_assoc]

theorem attempt_refused (gBytecmd : Nat) (dataPin clockPin : Int) (l : Locals) (w : World)
    (hnak : w.input w.nreads = HIGH) :
    attempt gBytecmd dataPin clockPin l w =
      (verdict gBytecmd { l with ntrysByte := l.ntrysByte + 1 },
       { w with nreads := w.nreads + 1,
                events := w.events ++ refusedEvents gBytecmd dataPin clockPin,
                calls := w.calls ++ refusedCalls gBytecmd }) := by
  by_cases h : l.checkSumByte = (l.valueByte + gBytecmd) % 256
    <;> simp [attempt, busStart_eq, sendByte_eq, checkAck_eq, busStop_eq, hnak, verdict,
      refusedEvents, refusedCalls, h]

/-! ## Bytes on the wire -/

theorem orBit_testBit (b : Nat) (hb : b < 256) :
    orBit (orBit (orBit (orBit (orBit (orBit (orBit (orBit 0x00 0x80 (b.testBit 7))
      0x40 (b.testBit 6)) 0x20 (b.testBit 5)) 0x10 (b.testBit 4))
      0x08 (b.testBit 3)) 0x04 (b.testBit 2)) 0x02 (b.testBit 1)) 0x01 (b.testBit 0) = b := by
  interval_cases b <;> rfl

theorem assemble_of_delivers (input : Nat → Bool) (n b : Nat) (hb : b < 256)
    (h : Delivers input n b) : assemble input n = b := by
  have h0 := h 0 (by norm_num)
  have h1 := h 1 (by norm_num)
  have h2 := h 2 (by norm_num)
  have h3 := h 3 (by norm_num)
  have h4 := h 4 (by norm_num)
  have h5 := h 5 (by norm_num)
  have h6 := h 6 (by norm_num)
  have h7 := h 7 (by norm_num)
  simp only [Nat.add_zero, Nat.sub_zero, Nat.reduceSub] at h0 h1 h2 h3 h4 h5 h6 h7
  unfold assemble
  rw [h0, h1, h2, h3, h4, h5, h6, h7]
  exact orBit_testBit b hb

/-! ## The retry loop -/

theorem attempts_acked (calls : List Call) (gBytecmd : Nat) :
    attempts (calls ++ ackedCalls gBytecmd) = attempts calls + 1 := by
  simp [attempts, ackedCalls, List.count_cons]

theorem attempts_refused (calls : List Call) (gBytecmd : Nat) :
    attempts (calls ++ refusedCalls gBytecmd) = attempts calls + 1 := by
  simp [attempts, refusedCalls, List.count_cons]

theorem readAByteLoop_done (gBytecmd : Nat) (dataPin clockPin : Int) (fuel : Nat) (l : Locals)
    (w : World) (h : ¬ (l.statusByte ≠ 0 ∧ l.ntrysByte < 3)) :
    readAByteLoop gBytecmd dataPin clockPin fuel l w = some (l.valueByte, w) := by
  unfold readAByteLoop
  rw [if_neg h]

theorem readAByteLoop_step (gBytecmd : Nat) (dataPin clockPin : Int) (fuel : Nat) (l : Locals)
    (w : World) (h : l.statusByte ≠ 0 ∧ l.ntrysByte < 3) :
    readAByteLoop gBytecmd dataPin clockPin (fuel + 1) l w =
      readAByteLoop gBytecmd dataPin clockPin fuel
        (attempt gBytecmd dataPin clockPin l w).1 (attempt gBytecmd dataPin clockPin l w).2 := by
  rw [readAByteLoop, if_pos h]

theorem readAByteLoop_zero (gBytecmd : Nat) (dataPin clockPin : Int) (l : Locals)
    (w : World) (h : l.statusByte ≠ 0 ∧ l.ntrysByte < 3) :
    readAByteLoop gBytecmd dataPin clockPin 0 l w = none := by
  rw [readAByteLoop, if_pos h]

theorem assemble_low (n : Nat) : assemble (fun _ => LOW) n = 0 := by
  simp [assemble, orBit]

theorem assemble_lt (input : Nat → Bool) (n : Nat) : assemble input n < 256 := by
  unfold assemble orBit
  cases input n <;> cases input (n + 1) <;> cases input (n + 2) <;> cases input (n + 3) <;>
    cases input (n + 4) <;> cases input (n + 5) <;> cases input (n + 6) <;>
    cases input (n + 7) <;> decide

/-- The first turn of the loop is always taken. -/
theorem readAByte_first_turn (fuel valueByte0 checkSumByte0 gBytecmd : Nat)
    (dataPin clockPin : Int) (w : World) :
    readAByte (fuel + 1) valueByte0 checkSumByte0 gBytecmd dataPin clockPin w =
      readAByteLoop gBytecmd dataPin clockPin fuel
        (attempt gBytecmd dataPin clockPin
          { valueByte := valueByte0, checkSumByte := checkSumByte0, statusByte := 1,
            ntrysByte := 0 } w).1
        (attempt gBytecmd dataPin clockPin
          { valueByte := valueByte0, checkSumByte := checkSumByte0, statusByte := 1,
            ntrysByte := 0 } w).2 :=
  readAByteLoop_step _ _ _ _ _ _ (by constructor <;> simp)

/-! ## The four ways a turn of the loop can go -/

theorem turn_acked_valid (gBytecmd : Nat) (dataPin clockPin : Int) (fuel : Nat) (l : Locals)
    (w : World) (hrun : l.statusByte ≠ 0 ∧ l.ntrysByte < 3) (hack : w.input w.nreads = LOW)
    (hsum : assemble w.input (w.nreads + 9) =
      (assemble w.input (w.nreads + 1) + gBytecmd) % 256) :
    readAByteLoop gBytecmd dataPin clockPin (fuel + 1) l w =
      some (assemble w.input (w.nreads + 1), w.afterAcked gBytecmd dataPin clockPin) := by
  rw [readAByteLoop_step _ _ _ _ _ _ hrun, attempt_acked _ _ _ _ _ hack]
  rw [readAByteLoop_done _ _ _ _ _ _ (by simp [verdict, hsum])]
  simp [verdict, hsum, World.afterAcked]

theorem turn_acked_mismatch (gBytecmd : Nat) (dataPin clockPin : Int) (fuel : Nat) (l : Locals)
    (w : World) (hrun : l.statusByte ≠ 0 ∧ l.ntrysByte < 3) (hack : w.input w.nreads = LOW)
    (hsum : assemble w.input (w.nreads + 9) ≠
      (assemble w.input (w.nreads + 1) + gBytecmd) % 256) :
    readAByteLoop gBytecmd dataPin clockPin (fuel + 1) l w =
      readAByteLoop gBytecmd dataPin clockPin fuel
        { l with valueByte := 0xFF, checkSumByte := assemble w.input (w.nreads + 9) }
        (w.afterAcked gBytecmd dataPin clockPin) := by
  rw [readAByteLoop_step _ _ _ _ _ _ hrun, attempt_acked _ _ _ _ _ hack]
  simp [verdict, hsum, World.afterAcked]

theorem turn_refused_valid (gBytecmd : Nat) (dataPin clockPin : Int) (fuel : Nat) (l : Locals)
    (w : World) (hrun : l.statusByte ≠ 0 ∧ l.ntrysByte < 3) (hnak : w.input w.nreads = HIGH)
    (hsum : l.checkSumByte = (l.valueByte + gBytecmd) % 256) :
    readAByteLoop gBytecmd dataPin clockPin (fuel + 1) l w =
      some (l.valueByte, w.afterRefused gBytecmd dataPin clockPin) := by
  rw [readAByteLoop_step _ _ _ _ _ _ hrun, attempt_refused _ _ _ _ _ hnak]
  rw [readAByteLoop_done _ _ _ _ _ _ (by simp [verdict, hsum])]
  simp [verdict, hsum, World.afterRefused]

theorem turn_refused_mismatch (gBytecmd : Nat) (dataPin clockPin : Int) (fuel : Nat)
    (l : Locals) (w : World) (hrun : l.statusByte ≠ 0 ∧ l.ntrysByte < 3)
    (hnak : w.input w.nreads = HIGH)
    (hsum : l.checkSumByte ≠ (l.valueByte + gBytecmd) % 256) :
    readAByteLoop gBytecmd dataPin clockPin (fuel + 1) l w =
      readAByteLoop gBytecmd dataPin clockPin fuel
        { l with valueByte := 0xFF, ntrysByte := l.ntrysByte + 1 }
        (w.afterRefused gBytecmd dataPin clockPin) := by
  rw [readAByteLoop_step _ _ _ _ _ _ hrun, attempt_refused _ _ _ _ _ hnak]
  simp [verdict, hsum, World.afterRefused]

theorem attempts_afterAcked (w : World) (gBytecmd : Nat) (dataPin clockPin : Int) :
    attempts (w.afterAcked gBytecmd dataPin clockPin).calls = attempts w.calls + 1 :=
  attempts_acked _ _

theorem attempts_afterRefused (w : World) (gBytecmd : Nat) (dataPin clockPin : Int) :
    attempts (w.afterRefused gBytecmd dataPin clockPin).calls = attempts w.calls + 1 :=
  attempts_refused _ _

/-! ## The command engine -/

/-- On a bus that acknowledges every command and answers with a checksum that
never fits, the loop is still running after any number of turns. -/
theorem readAByteLoop_all_low (dataPin clockPin : Int) (fuel : Nat) :
    ∀ (l : Locals) (w : World), w.input = (fun _ => LOW) → l.statusByte = 1 → l.ntrysByte = 0 →
      readAByteLoop gStatusByte_Cmd dataPin clockPin fuel l w = none := by
  induction fuel with
  | zero =>
    intro l w _ hs hn
    exact readAByteLoop_zero _ _ _ l w (by rw [hs, hn]; decide)
  | succ fuel ih =>
    intro l w hw hs hn
    rw [readAByteLoop_step _ _ _ _ l w (by rw [hs, hn]; decide)]
    rw [attempt_acked _ _ _ l w (by rw [hw])]
    apply ih
    · simp [hw]
    · simp [verdict, hw, assemble_low, gStatusByte_Cmd, hs]
    · simp [verdict, hw, assemble_low, gStatusByte_Cmd, hn]

/-- C1, evaluated on the code: for the status command 0x71 on a bus whose data
line reads LOW at every sample (each attempt is acknowledged and delivers
value 0x00 with checksum 0x00, which is not 0x71), `readAByte` is still in its
loop after any number of attempts, whatever the pins and the initial content
of its locals: the retry counter only counts unacknowledged attempts. -/
theorem readAByte_checksum_mismatch_never_returns (fuel valueByte0 checkSumByte0 : Nat)
    (dataPin clockPin : Int) :
    readAByte fuel valueByte0 checkSumByte0 gStatusByte_Cmd dataPin clockPin
      (World.init fun _ => LOW) = none :=
  readAByteLoop_all_low dataPin clockPin fuel _ _ rfl rfl rfl

/-- C2, evaluated on the code: on a bus that never acknowledges (the data
line reads HIGH at every sample), with the status command 0x71, when the
unassigned locals happen to hold value 0x00 and checksum 0x71, `readAByte`
returns 0x00 after a single attempt (one `busStart`, one sample of the data
line), not three: the checksum test runs on the unassigned locals after the
unacknowledged attempt and passes. -/
theorem readAByte_never_acked_one_attempt (fuel : Nat) (dataPin clockPin : Int) :
    ∃ w', readAByte (fuel + 1) 0x00 0x71 gStatusByte_Cmd dataPin clockPin
        (World.init fun _ => HIGH) = some (0x00, w') ∧
      attempts w'.calls = 1 ∧ w'.nreads = 1 := by
  refine ⟨⟨fun _ => HIGH, 1, refusedEvents gStatusByte_Cmd dataPin clockPin,
    refusedCalls gStatusByte_Cmd⟩, ?_, by simp [attempts, refusedCalls, List.count_cons], rfl⟩
  rw [readAByte_first_turn, attempt_refused _ _ _ _ _ rfl]
  rw [readAByteLoop_done _ _ _ _ _ _ (by simp [verdict, gStatusByte_Cmd])]
  simp [verdict, gStatusByte_Cmd, World.init]

/-- C3: if on the first attempt the slave acknowledges the command `c` (the
data line reads LOW at the acknowledgement sample), then delivers the value
byte `v` and then the checksum byte `(v + c) mod 256`, most significant bit
first, then `readAByte c` returns `v` after exactly one attempt, for all pins,
all initial contents of its locals and any fuel of at least one turn. -/
theorem readAByte_valid_first_attempt (c v : Nat) (dataPin clockPin : Int)
    (fuel valueByte0 checkSumByte0 : Nat) (w : World)
    (hv : v < 256)
    (hack : w.input w.nreads = LOW)
    (hvalue : Delivers w.input (w.nreads + 1) v)
    (hsum : Delivers w.input (w.nreads + 9) ((v + c) % 256)) :
    ∃ w', readAByte (fuel + 1) valueByte0 checkSumByte0 c dataPin clockPin w = some (v, w') ∧
      attempts w'.calls = attempts w.calls + 1 := by
  have e1 := assemble_of_delivers _ _ _ hv hvalue
  have e2 := assemble_of_delivers _ _ _ (Nat.mod_lt _ (by norm_num)) hsum
  refine ⟨{ w with nreads := w.nreads + 17,
                   events := w.events ++ ackedEvents c dataPin clockPin w.input w.nreads,
                   calls := w.calls ++ ackedCalls c }, ?_, attempts_acked _ _⟩
  rw [readAByte_first_turn, attempt_acked _ _ _ _ _ hack]
  rw [readAByteLoop_done _ _ _ _ _ _ (by simp [verdict, e1, e2])]
  simp [verdict, e1, e2]

theorem readAByte_valid_first_attempt_witness :
    ∃ w', readAByte 1 0xFF 0xFF gStatusByte_Cmd 2 3 (World.init validStatusAnswer) = some (0, w') ∧
      attempts w'.calls = attempts (World.init validStatusAnswer).calls + 1 :=
  readAByte_valid_first_attempt gStatusByte_Cmd 0 2 3 0 0xFF 0xFF (World.init validStatusAnswer)
    (by decide) (by decide) (by decide) (by decide)


/-- C4, as amended: if the first attempt is acknowledged and delivers value
`v1` with a checksum `s1` other than `(v1 + c) mod 256`, `readAByte c` does not
return after that attempt (fuel for one turn is not enough: a second attempt
is started); and if that second attempt is acknowledged and delivers `v2` with
checksum `(v2 + c) mod 256`, `readAByte c` returns `v2` after exactly two
attempts, that is exactly one additional sequence. -/
theorem readAByte_retry_after_mismatch (c v1 s1 v2 : Nat) (dataPin clockPin : Int)
    (fuel valueByte0 checkSumByte0 : Nat) (w : World)
    (hv1 : v1 < 256) (hs1 : s1 < 256)
    (hack1 : w.input w.nreads = LOW)
    (hvalue1 : Delivers w.input (w.nreads + 1) v1)
    (hsum1 : Delivers w.input (w.nreads + 9) s1)
    (hbad : s1 ≠ (v1 + c) % 256) :
    readAByte 1 valueByte0 checkSumByte0 c dataPin clockPin w = none ∧
    (v2 < 256 → w.input (w.nreads + 17) = LOW →
      Delivers w.input (w.nreads + 18) v2 →
      Delivers w.input (w.nreads + 26) ((v2 + c) % 256) →
      ∃ w', readAByte (fuel + 2) valueByte0 checkSumByte0 c dataPin clockPin w = some (v2, w') ∧
        attempts w'.calls = attempts w.calls + 2) := by
  have e1 := assemble_of_delivers _ _ _ hv1 hvalue1
  have e2 := assemble_of_delivers _ _ _ hs1 hsum1
  have hmis : assemble w.input (w.nreads + 9) ≠ (assemble w.input (w.nreads + 1) + c) % 256 := by
    rw [e1, e2]; exact hbad
  have hrun : ∀ x y : Nat, (Locals.mk x y 1 0).statusByte ≠ 0 ∧ (Locals.mk x y 1 0).ntrysByte < 3 :=
    fun _ _ => by constructor <;> simp
  constructor
  · unfold readAByte
    rw [turn_acked_mismatch _ _ _ _ _ _ (hrun _ _) hack1 hmis]
    exact readAByteLoop_zero _ _ _ _ _ (hrun _ _)
  · intro hv2 hack2 hvalue2 hsum2
    have hack2' : (w.afterAcked c dataPin clockPin).input (w.afterAcked c dataPin clockPin).nreads
        = LOW := hack2
    have e3 : assemble (w.afterAcked c dataPin clockPin).input
        ((w.afterAcked c dataPin clockPin).nreads + 1) = v2 :=
      assemble_of_delivers _ _ _ hv2 hvalue2
    have e4 : assemble (w.afterAcked c dataPin clockPin).input
        ((w.afterAcked c dataPin clockPin).nreads + 9) = (v2 + c) % 256 :=
      assemble_of_delivers _ _ _ (Nat.mod_lt _ (by norm_num)) hsum2
    refine ⟨(w.afterAcked c dataPin clockPin).afterAcked c dataPin clockPin, ?_, ?_⟩
    · unfold readAByte
      rw [turn_acked_mismatch _ _ _ _ _ _ (hrun _ _) hack1 hmis]
      rw [turn_acked_valid _ _ _ _ _ _ (hrun _ _) hack2' (by rw [e3, e4]), e3]
    · rw [attempts_afterAcked, attempts_afterAcked]

theorem readAByte_retry_after_mismatch_witness :
    readAByte 1 0xFF 0xFF gStatusByte_Cmd 2 3 (World.init retryOnceBus) = none ∧
    ∃ w', readAByte 2 0xFF 0xFF gStatusByte_Cmd 2 3 (World.init retryOnceBus) = some (0, w') ∧
      attempts w'.calls = attempts (World.init retryOnceBus).calls + 2 :=
  have h := readAByte_retry_after_mismatch gStatusByte_Cmd 0 0 0 2 3 0 0xFF 0xFF
    (World.init retryOnceBus) (by decide) (by decide) (by decide) (by decide) (by decide)
    (by decide)
  ⟨h.1, h.2 (by decide) (by decide) (by decide) (by decide)⟩

/-- C4 as stated fails: with the status command 0x71, on a bus whose first
attempt is acknowledged and delivers value 0x00 with checksum 0x00 (not
0x71), whose second attempt does the same and whose third attempt delivers
0x00 with checksum 0x71, `readAByte` returns 0x00 after three attempts: the
first mismatch is followed by two additional sequences, not exactly one. -/
theorem readAByte_mismatch_two_more_attempts :
    retryTwiceBus 0 = LOW ∧ Delivers retryTwiceBus 1 0x00 ∧ Delivers retryTwiceBus 9 0x00 ∧
    0x00 ≠ (0x00 + gStatusByte_Cmd) % 256 ∧
    ∃ w', readAByte 3 0xFF 0xFF gStatusByte_Cmd 2 3 (World.init retryTwiceBus) = some (0x00, w') ∧
      attempts w'.calls = 3 := by
  refine ⟨by decide, by decide, by decide, by decide,
    (((World.init retryTwiceBus).afterAcked gStatusByte_Cmd 2 3).afterAcked
      gStatusByte_Cmd 2 3).afterAcked gStatusByte_Cmd 2 3, ?_, ?_⟩
  · unfold readAByte
    rw [turn_acked_mismatch _ _ _ _ _ _ (by decide) (by decide) (by decide)]
    rw [turn_acked_mismatch _ _ _ _ _ _ (by decide) (by decide) (by decide)]
    rw [turn_acked_valid _ _ _ _ _ _ (by decide) (by decide) (by decide)]
    simp only [Option.some.injEq, Prod.mk.injEq, and_true]
    decide
  · rw [attempts_afterAcked, attempts_afterAcked, attempts_afterAcked]
    rfl

/-- C5, evaluated on the code: on a bus that never acknowledges (the data
line reads HIGH at every sample), with the humidity low-byte command 0x81,
when the unassigned locals happen to hold value 0x2C and checksum 0xAD,
`readAByte` returns 0x2C, not the sentinel 0xFF, although its only attempt was
not acknowledged and no byte was received (a single sample of the data line
was taken). -/
theorem readAByte_returns_unassigned_value (fuel : Nat) (dataPin clockPin : Int) :
    ∃ w', readAByte (fuel + 1) 0x2C 0xAD gHumidity_LBCmd dataPin clockPin
        (World.init fun _ => HIGH) = some (0x2C, w') ∧
      0x2C ≠ 0xFF ∧ w'.calls = refusedCalls gHumidity_LBCmd ∧ w'.nreads = 1 := by
  refine ⟨(World.init fun _ => HIGH).afterRefused gHumidity_LBCmd dataPin clockPin, ?_,
    by decide, rfl, rfl⟩
  unfold readAByte
  rw [turn_refused_valid _ _ _ _ _ _ (by decide) rfl (by decide)]

/-! ## The accessors -/

theorem issue_two {σ : Type} (engine : Engine σ) (c1 c2 b1 b2 : Nat) (s s' : σ)
    (h : issue engine [c1, c2] s = some ([b1, b2], s')) :
    ∃ s1, engine c1 s = some (b1, s1) ∧ engine c2 s1 = some (b2, s') := by
  simp only [issue] at h
  cases h1 : engine c1 s with
  | none => simp [h1] at h
  | some r1 =>
    obtain ⟨x1, s1⟩ := r1
    simp only [h1] at h
    cases h2 : engine c2 s1 with
    | none => simp [h2] at h
    | some r2 =>
      obtain ⟨x2, s2⟩ := r2
      simp only [h2, Option.some.injEq, Prod.mk.injEq, List.cons.injEq, and_true] at h
      obtain ⟨⟨e1, e2⟩, e3⟩ := h
      subst e1 e2 e3
      exact ⟨s1, by simp, by simp [h2]⟩

theorem issue_four {σ : Type} (engine : Engine σ) (c1 c2 c3 c4 b1 b2 b3 b4 : Nat) (s s' : σ)
    (h : issue engine [c1, c2, c3, c4] s = some ([b1, b2, b3, b4], s')) :
    ∃ s1 s2 s3, engine c1 s = some (b1, s1) ∧ engine c2 s1 = some (b2, s2) ∧
      engine c3 s2 = some (b3, s3) ∧ engine c4 s3 = some (b4, s') := by
  simp only [issue] at h
  cases h1 : engine c1 s with
  | none => simp [h1] at h
  | some r1 =>
    obtain ⟨x1, s1⟩ := r1
    simp only [h1] at h
    cases h2 : engine c2 s1 with
    | none => simp [h2] at h
    | some r2 =>
      obtain ⟨x2, s2⟩ := r2
      simp only [h2] at h
      cases h3 : engine c3 s2 with
      | none => simp [h3] at h
      | some r3 =>
        obtain ⟨x3, s3⟩ := r3
        simp only [h3] at h
        cases h4 : engine c4 s3 with
        | none => simp [h4] at h
        | some r4 =>
          obtain ⟨x4, s4⟩ := r4
          simp only [h4, Option.some.injEq, Prod.mk.injEq, List.cons.injEq, and_true] at h
          obtain ⟨⟨e1, e2, e3, e4⟩, e5⟩ := h
          subst e1 e2 e3 e4 e5
          exact ⟨s1, s2, s3, by simp, by simp [h2], by simp [h3], by simp [h4]⟩

theorem wrapInt_of_fits (x : Int) (hlow : -32768 ≤ x) (hhigh : x < 32768) : wrapInt x = x := by
  unfold wrapInt INT_BITS
  norm_num
  omega

/-- The `int` `(HB*256) + LB` is `HB*256 + LB` when the high byte is below
0x80. -/
theorem int_sum_in_range (hb lb : Nat) (hhb : hb < 128) (hlb : lb < 256) :
    wrapInt (wrapInt (hb * 256) + lb) = ((hb * 256 + lb : Nat) : Int) := by
  rw [wrapInt_of_fits (hb * 256) (by omega) (by omega), wrapInt_of_fits _ (by omega) (by omega)]
  push_cast
  rfl

/-- The `int` `(HB*256) + LB` is `HB*256 + LB - 65536` when the high byte is
0x80 or more. -/
theorem int_sum_wrapped (hb lb : Nat) (hhb : 128 ≤ hb) (hhb' : hb < 256) (hlb : lb < 256) :
    wrapInt (wrapInt (hb * 256) + lb) = ((hb * 256 + lb : Nat) : Int) - 65536 := by
  unfold wrapInt INT_BITS
  norm_num
  omega

theorem read_eq_readTwoBytes {σ : Type} (q : Quantity) (engine : Engine σ) (s : σ) :
    q.read engine s = readTwoBytes q.lowCmd q.highCmd q.sentinel q.convert engine s := by
  cases q <;> rfl

theorem readTwoBytes_first_status {σ : Type} (lowCmd highCmd : Nat) (sentinel : ℚ)
    (convert : ℚ → ℚ) (engine : Engine σ) (s s1 s2 : σ) (lb st : Nat)
    (h1 : engine lowCmd s = some (lb, s1)) (h2 : engine 0x71 s1 = some (st, s2))
    (hst : st ≠ 0) :
    readTwoBytes lowCmd highCmd sentinel convert engine s = some (sentinel, s2) := by
  simp [readTwoBytes, gStatusByte_Cmd, h1, h2, hst]

theorem readTwoBytes_second_status {σ : Type} (lowCmd highCmd : Nat) (sentinel : ℚ)
    (convert : ℚ → ℚ) (engine : Engine σ) (s s1 s2 s3 s4 : σ) (lb hb st : Nat)
    (h1 : engine lowCmd s = some (lb, s1)) (h2 : engine 0x71 s1 = some (0, s2))
    (h3 : engine highCmd s2 = some (hb, s3)) (h4 : engine 0x71 s3 = some (st, s4))
    (hst : st ≠ 0) :
    readTwoBytes lowCmd highCmd sentinel convert engine s = some (sentinel, s4) := by
  simp [readTwoBytes, gStatusByte_Cmd, h1, h2, h3, h4, hst]

theorem readTwoBytes_valid {σ : Type} (lowCmd highCmd : Nat) (sentinel : ℚ)
    (convert : ℚ → ℚ) (engine : Engine σ) (s s1 s2 s3 s4 : σ) (lb hb : Nat)
    (h1 : engine lowCmd s = some (lb, s1)) (h2 : engine 0x71 s1 = some (0, s2))
    (h3 : engine highCmd s2 = some (hb, s3)) (h4 : engine 0x71 s3 = some (0, s4)) :
    readTwoBytes lowCmd highCmd sentinel convert engine s =
      some (convert ((wrapInt (wrapInt (hb * 256) + lb) : Int) : ℚ), s4) := by
  simp [readTwoBytes, gStatusByte_Cmd, h1, h2, h3, h4]

/-- C6: for each of `readCO2average`, `readHumidity`, `readTemperature` and
`readPressure`, over any command engine and whatever low and high bytes it
returns: if the status byte the engine returns at the first checkpoint is
nonzero, or the first is zero and the one at the second checkpoint is nonzero,
the accessor returns its sentinel, -300 for temperature and -1 for the other
three, and leaves the bus in the state the last status read left it in. -/
theorem accessor_sentinel_on_nonzero_status {σ : Type} (q : Quantity) (engine : Engine σ)
    (s s' : σ) (lb hb st : Nat) (hst : st ≠ 0)
    (h : issue engine [q.lowCmd, 0x71] s = some ([lb, st], s') ∨
      issue engine [q.lowCmd, 0x71, q.highCmd, 0x71] s = some ([lb, 0, hb, st], s')) :
    q.read engine s = some (if q = Quantity.temperature then -300 else -1, s') := by
  have hs : (if q = Quantity.temperature then (-300 : ℚ) else -1) = q.sentinel := by
    cases q <;> rfl
  rw [hs, read_eq_readTwoBytes]
  rcases h with h | h
  · obtain ⟨s1, h1, h2⟩ := issue_two _ _ _ _ _ _ _ h
    exact readTwoBytes_first_status _ _ _ _ _ _ _ _ _ _ h1 h2 hst
  · obtain ⟨s1, s2, s3, h1, h2, h3, h4⟩ := issue_four _ _ _ _ _ _ _ _ _ _ _ h
    exact readTwoBytes_second_status _ _ _ _ _ _ _ _ _ _ _ _ _ h1 h2 h3 h4 hst

theorem accessor_sentinel_on_nonzero_status_witness :
    Quantity.temperature.read replay [0x10, 0, 0x27, 1] = some (-300, []) := by
  simpa using accessor_sentinel_on_nonzero_status Quantity.temperature replay
    [0x10, 0, 0x27, 1] [] 0x10 0x27 1 (by decide) (Or.inr (by decide))

theorem recording_some {σ : Type} (engine : Engine σ) (cmd b : Nat) (log : List Nat) (s s' : σ)
    (h : engine cmd s = some (b, s')) :
    recording engine cmd (log, s) = some (b, (log ++ [cmd], s')) := by
  simp [recording, h]

/-- C7: over any command engine, whatever the pressure low byte it returns:
if the status byte it returns at the first status check is nonzero, then
`readPressure` returns -1, and the commands it has issued to the engine are
exactly 0xC1 (pressure low byte) then 0x71 (status), in that order: no 0xD1
and no second status read. -/
theorem readPressure_stops_at_first_status {σ : Type} (engine : Engine σ) (s s' : σ)
    (log : List Nat) (lb st : Nat) (hst : st ≠ 0)
    (h : issue engine [0xC1, 0x71] s = some ([lb, st], s')) :
    readPressure (recording engine) (log, s) = some (-1, (log ++ [0xC1, 0x71], s')) := by
  obtain ⟨s1, h1, h2⟩ := issue_two _ _ _ _ _ _ _ h
  have r1 := recording_some engine 0xC1 lb log s s1 h1
  have r2 := recording_some engine 0x71 st (log ++ [0xC1]) s1 s' h2
  have e := readTwoBytes_first_status 0xC1 0xD1 (-1) (fun raw => raw / 10.0) (recording engine)
    _ _ _ lb st r1 r2 hst
  simpa using e

theorem readPressure_stops_at_first_status_witness :
    readPressure (recording replay) ([], [0x34, 0x01, 0x27, 0x00]) =
      some (-1, ([0xC1, 0x71], [0x27, 0x00])) := by
  simpa using readPressure_stops_at_first_status replay [0x34, 0x01, 0x27, 0x00] [0x27, 0x00]
    [] 0x34 0x01 (by decide) (by decide)

/-- Within the range of `int`: over any command engine, for a high byte below
0x80, when both status checks return 0 the accessor returns, over
`raw = hb * 256 + lb`: `raw` for `readCO2average`, `raw / 100` for
`readHumidity`, `raw / 100 - 273.15` for `readTemperature` and `raw / 10` for
`readPressure`. -/
theorem accessor_conversion_in_range {σ : Type} (q : Quantity) (engine : Engine σ)
    (s s' : σ) (lb hb : Nat) (hhb : hb < 128) (hlb : lb < 256)
    (h : issue engine [q.lowCmd, 0x71, q.highCmd, 0x71] s = some ([lb, 0, hb, 0], s')) :
    q.read engine s =
      some (match q with
        | Quantity.co2 => ((hb * 256 + lb : Nat) : ℚ)
        | Quantity.humidity => ((hb * 256 + lb : Nat) : ℚ) / 100
        | Quantity.temperature => ((hb * 256 + lb : Nat) : ℚ) / 100 - 273.15
        | Quantity.pressure => ((hb * 256 + lb : Nat) : ℚ) / 10, s') := by
  obtain ⟨s1, s2, s3, h1, h2, h3, h4⟩ := issue_four _ _ _ _ _ _ _ _ _ _ _ h
  rw [read_eq_readTwoBytes, readTwoBytes_valid _ _ _ _ _ _ _ _ _ _ _ _ h1 h2 h3 h4,
    int_sum_in_range hb lb hhb hlb]
  cases q <;> norm_num [Quantity.convert]

/-- The humidity example of the spec: high byte 0x01, low byte 0x2C and both
status checks 0 give (1*256+44)/100 = 3. -/
theorem readHumidity_example : readHumidity replay [0x2C, 0, 0x01, 0] = some (3, []) := by
  have h := accessor_conversion_in_range Quantity.humidity replay [0x2C, 0, 0x01, 0] [] 0x2C
    0x01 (by decide) (by decide) (by decide)
  simp only [Quantity.read] at h
  rw [h]
  norm_num

/-- What the four accessors return for low byte 0x00 and high byte 0x80 with
both status checks 0. -/
theorem readTwoBytes_at_0x8000 (lowCmd highCmd : Nat) (sentinel : ℚ) (convert : ℚ → ℚ) :
    readTwoBytes lowCmd highCmd sentinel convert replay [0x00, 0, 0x80, 0] =
      some (convert (-32768), []) := by
  rw [readTwoBytes_valid lowCmd highCmd sentinel convert replay
    [0x00, 0, 0x80, 0] [0, 0x80, 0] [0x80, 0] [0] [] 0x00 0x80 rfl rfl rfl rfl,
    int_sum_wrapped 0x80 0x00 (by decide) (by decide) (by decide)]
  norm_num

/-- C8, evaluated on the code: when the engine returns low byte 0x00, high
byte 0x80 and 0 for both status reads, so that `raw = 0x80 * 256 + 0x00` is
32768, the `int` product `HB*256` does not fit the 16 bits of `int` and wraps:
`readCO2average` returns -32768 and not 32768, `readHumidity` -327.68 and not
327.68, `readTemperature` -327.68 - 273.15 and not 327.68 - 273.15,
`readPressure` -3276.8 and not 3276.8. -/
theorem accessors_wrap_at_high_byte_0x80 :
    issue replay [0x81, 0x71, 0x91, 0x71] [0x00, 0, 0x80, 0] = some ([0x00, 0, 0x80, 0], []) ∧
    readCO2average replay [0x00, 0, 0x80, 0] = some (-32768, []) ∧
    readHumidity replay [0x00, 0, 0x80, 0] = some (-327.68, []) ∧
    readTemperature replay [0x00, 0, 0x80, 0] = some (-327.68 - 273.15, []) ∧
    readPressure replay [0x00, 0, 0x80, 0] = some (-3276.8, []) ∧
    ((0x80 * 256 + 0x00 : ℚ) / 100 = 327.68) := by
  have c : readCO2average replay [0x00, 0, 0x80, 0] =
      readTwoBytes 0xE1 0xF1 (-1) (fun raw => raw) replay [0x00, 0, 0x80, 0] := rfl
  have u : readHumidity replay [0x00, 0, 0x80, 0] =
      readTwoBytes 0x81 0x91 (-1) (fun raw => raw / 100.0) replay [0x00, 0, 0x80, 0] := rfl
  have t : readTemperature replay [0x00, 0, 0x80, 0] =
      readTwoBytes 0xA1 0xB1 (-300) (fun raw => raw / 100.0 - 273.15) replay
        [0x00, 0, 0x80, 0] := rfl
  have r : readPressure replay [0x00, 0, 0x80, 0] =
      readTwoBytes 0xC1 0xD1 (-1) (fun raw => raw / 10.0) replay [0x00, 0, 0x80, 0] := rfl
  rw [c, u, t, r, readTwoBytes_at_0x8000, readTwoBytes_at_0x8000, readTwoBytes_at_0x8000,
    readTwoBytes_at_0x8000]
  refine ⟨by decide, ?_, ?_, ?_, ?_, ?_⟩ <;> norm_num

/-- C9 as stated fails: when the engine returns 0x10, 0, 0x27, 0 for the four
commands of `readTemperature`, the result is not -173.39. -/
theorem readTemperature_example_not_173_39 :
    issue replay [0xA1, 0x71, 0xB1, 0x71] [0x10, 0, 0x27, 0] = some ([0x10, 0, 0x27, 0], []) ∧
    (readTemperature replay [0x10, 0, 0x27, 0]).map Prod.fst ≠ some (-173.39) := by
  refine ⟨by decide, ?_⟩
  have h := readTwoBytes_valid 0xA1 0xB1 (-300) (fun raw => raw / 100.0 - 273.15) replay
    [0x10, 0, 0x27, 0] [0, 0x27, 0] [0x27, 0] [0] [] 0x10 0x27 rfl rfl rfl rfl
  have e : readTemperature replay [0x10, 0, 0x27, 0] =
      readTwoBytes 0xA1 0xB1 (-300) (fun raw => raw / 100.0 - 273.15) replay
        [0x10, 0, 0x27, 0] := rfl
  rw [e, h, int_sum_in_range 0x27 0x10 (by decide) (by decide)]
  norm_num

/-- C9, as amended: over any command engine, when it returns 0x10 for the
temperature low-byte command, 0x27 for the temperature high-byte command and
0 for both status reads, `readTemperature` returns
(39*256+16)/100 - 273.15 = 100 - 273.15 = -173.15 as an exact rational. -/
theorem readTemperature_example {σ : Type} (engine : Engine σ) (s s' : σ)
    (h : issue engine [0xA1, 0x71, 0xB1, 0x71] s = some ([0x10, 0, 0x27, 0], s')) :
    readTemperature engine s = some (-173.15, s') ∧
      ((39 * 256 + 16 : ℚ) / 100 - 273.15 = -173.15) ∧ ((39 * 256 + 16 : ℚ) / 100 = 100) := by
  obtain ⟨s1, s2, s3, h1, h2, h3, h4⟩ := issue_four _ _ _ _ _ _ _ _ _ _ _ h
  have e : readTemperature engine s =
      readTwoBytes 0xA1 0xB1 (-300) (fun raw => raw / 100.0 - 273.15) engine s := rfl
  rw [e, readTwoBytes_valid _ _ _ _ _ _ _ _ _ _ _ _ h1 h2 h3 h4,
    int_sum_in_range 0x27 0x10 (by decide) (by decide)]
  norm_num

theorem readTemperature_example_witness :
    readTemperature replay [0x10, 0, 0x27, 0] = some (-173.15, []) :=
  (readTemperature_example replay [0x10, 0, 0x27, 0] [] (by decide)).1

/-! ## Loopback -/

theorem land_mask_ne_zero (v i : Nat) : decide ((v &&& 2 ^ i) ≠ 0) = v.testBit i := by
  rw [Nat.and_two_pow]
  cases v.testBit i <;> simp

theorem sendByteEvents_clockHighLevels (v : Nat) (dataPin clockPin : Int) (data clock : Bool)
    (hpins : dataPin ≠ clockPin) :
    clockHighLevels dataPin clockPin data clock (sendByteEvents v dataPin clockPin) =
      [v.testBit 7, v.testBit 6, v.testBit 5, v.testBit 4, v.testBit 3, v.testBit 2,
       v.testBit 1, v.testBit 0] := by
  have m7 := land_mask_ne_zero v 7
  have m6 := land_mask_ne_zero v 6
  have m5 := land_mask_ne_zero v 5
  have m4 := land_mask_ne_zero v 4
  have m3 := land_mask_ne_zero v 3
  have m2 := land_mask_ne_zero v 2
  have m1 := land_mask_ne_zero v 1
  have m0 := land_mask_ne_zero v 0
  simp only [Nat.reducePow] at m7 m6 m5 m4 m3 m2 m1 m0
  rw [← m7, ← m6, ← m5, ← m4, ← m3, ← m2, ← m1, ← m0]
  simp [sendByteEvents, sendBitEvents, clockHighLevels, hpins]

/-- C10: round trip on a loopback bus.  For every 8-bit value `v` and two
distinct pins, if the level `readByte` samples at its `k`-th read (taken while
the clock is high) is the data-line level that was in force at the `k`-th
rising edge of the clock during `sendByte v` (`k = 0..7`), then `readByte`
returns `v` unchanged, and the `k`-th transferred level is bit `7 - k` of `v`:
most significant bit first. -/
theorem sendByte_readByte_round_trip (v : Nat) (dataPin clockPin : Int) (data clock : Bool)
    (input0 : Nat → Bool) (w : World) (hv : v < 256) (hpins : dataPin ≠ clockPin)
    (hloop : ∀ k, k < 8 →
      (clockHighLevels dataPin clockPin data clock
        (sendByte v dataPin clockPin (World.init input0)).events)[k]? =
          some (w.input (w.nreads + k))) :
    (readByte dataPin clockPin w).1 = v ∧
      ∀ k, k < 8 → w.input (w.nreads + k) = v.testBit (7 - k) := by
  have hbits : ∀ k, k < 8 → w.input (w.nreads + k) = v.testBit (7 - k) := by
    intro k hk
    have h := hloop k hk
    rw [sendByte_eq] at h
    simp only [World.init, List.nil_append] at h
    rw [sendByteEvents_clockHighLevels v dataPin clockPin data clock hpins] at h
    interval_cases k <;> simpa using h.symm
  refine ⟨?_, hbits⟩
  rw [readByte_eq]
  exact assemble_of_delivers _ _ _ hv hbits

theorem sendByte_readByte_round_trip_witness :
    (readByte 2 3 (World.init loopbackA5)).1 = 0xA5 ∧
      ∀ k, k < 8 → (World.init loopbackA5).input ((World.init loopbackA5).nreads + k) =
        (0xA5 : Nat).testBit (7 - k) :=
  sendByte_readByte_round_trip 0xA5 2 3 HIGH HIGH (fun _ => LOW) (World.init loopbackA5)
    (by decide) (by decide)
    (by
      intro k hk
      rw [sendByte_eq]
      simp only [World.init, List.nil_append]
      rw [sendByteEvents_clockHighLevels 0xA5 2 3 HIGH HIGH (by decide)]
      interval_cases k <;> decide)

/-! ## Sensor type and parameters -/

/-- C11: over any command engine, for every byte `p` it returns for the
parameters command 0x31, `readSensorparameters` returns 0 when `p = 0xFF` and
otherwise the low four bits of `p`, that is `p mod 16`; the result is always
less than 16. -/
theorem readSensorparameters_low_nibble {σ : Type} (engine : Engine σ) (s s' : σ) (p : Nat)
    (h : engine 0x31 s = some (p, s')) :
    readSensorparameters engine s = some (if p = 0xFF then 0 else p % 16, s') ∧
      (if p = 0xFF then 0 else p % 16) < 16 := by
  have e : ((p <<< 4) % 256) >>> 4 = p % 16 := by
    rw [Nat.shiftLeft_eq, Nat.shiftRight_eq_div_pow]
    norm_num
    omega
  constructor
  · by_cases hp : p = 0xFF
    · simp [readSensorparameters, gSensorParameters_Cmd, h, hp]
    · simp [readSensorparameters, gSensorParameters_Cmd, h, hp, e]
  · split
    · decide
    · exact Nat.mod_lt _ (by decide)

theorem readSensorparameters_low_nibble_witness :
    readSensorparameters replay [0x3B] = some (0x0B, []) := by
  simpa using (readSensorparameters_low_nibble replay [0x3B] [] 0x3B rfl).1

/-- The `int` that `readSensortype` returns for two bytes: the sum goes
through an `unsigned int` and comes back as an `int`. -/
theorem sensorGroup_value (hb lb : Nat) (hhb : hb < 256) (hlb : lb < 256) :
    wrapInt (wrapUInt (wrapInt (wrapInt (hb * 256) + lb))) =
      if hb < 128 then ((hb * 256 + lb : Nat) : Int) else ((hb * 256 + lb : Nat) : Int) - 65536 := by
  unfold wrapInt wrapUInt INT_BITS
  norm_num
  split <;> omega

/-- Over any command engine, for every pair of bytes `lb`, `hb` it returns,
`readSensortype` issues exactly the commands 0x11 and 0x41, in that order,
and returns `hb * 256 + lb` when `hb` is below 0x80 and `hb * 256 + lb - 65536`
otherwise. -/
theorem readSensortype_value {σ : Type} (engine : Engine σ) (s s' : σ) (log : List Nat)
    (lb hb : Nat) (hlb : lb < 256) (hhb : hb < 256)
    (h : issue engine [0x11, 0x41] s = some ([lb, hb], s')) :
    readSensortype (recording engine) (log, s) =
      some (if hb < 128 then ((hb * 256 + lb : Nat) : Int)
        else ((hb * 256 + lb : Nat) : Int) - 65536, (log ++ [0x11, 0x41], s')) := by
  obtain ⟨s1, h1, h2⟩ := issue_two _ _ _ _ _ _ _ h
  have r1 := recording_some engine 0x11 lb log s s1 h1
  have r2 := recording_some engine 0x41 hb (log ++ [0x11]) s1 s' h2
  rw [← sensorGroup_value hb lb hhb hlb]
  simp [readSensortype, gSensorType_LBCmd, gSensorType_HBCmd, r1, r2]

/-- C13, evaluated on the code: when the engine returns low byte 0x00 and high
byte 0x80, `readSensortype` issues the commands 0x11 and 0x41 and returns
-32768, not 0x80 * 256 + 0x00 = 32768 and not a value between 0 and 65535:
the sum does not fit the 16 bits of the `int` the method returns. -/
theorem readSensortype_negative_at_high_byte_0x80 :
    readSensortype (recording replay) ([], [0x00, 0x80]) =
        some (-32768, ([0x11, 0x41], [])) ∧
      ((0x80 * 256 + 0x00 : Int) = 32768) ∧ ¬ ((0 : Int) ≤ -32768) := by
  refine ⟨?_, by decide, by decide⟩
  have h := readSensortype_value replay [0x00, 0x80] [] [] 0x00 0x80 (by decide) (by decide)
    (by decide)
  simpa using h

/-! ## The bus at rest -/

theorem idle_of_busStop (dataPin clockPin : Int) (pre : List Event) :
    Idle dataPin clockPin (pre ++ busStopEvents dataPin clockPin) := by
  by_cases h : dataPin = clockPin
  · subst h
    simp [Idle, lastMode, lastWrite, busStopEvents, List.foldl_append]
  · have h' : ¬ clockPin = dataPin := fun e => h e.symm
    simp [Idle, lastMode, lastWrite, busStopEvents, List.foldl_append, h, h']

theorem attempt_ends_with_busStop (gBytecmd : Nat) (dataPin clockPin : Int) (l : Locals)
    (w : World) :
    ∃ pre, (attempt gBytecmd dataPin clockPin l w).2.events = pre ++ busStopEvents dataPin clockPin := by
  cases h : w.input w.nreads with
  | false =>
    rw [attempt_acked _ _ _ _ _ h]
    refine ⟨w.events ++ (busStartEvents dataPin clockPin ++ sendByteEvents gBytecmd dataPin clockPin ++
      checkAckEvents dataPin clockPin LOW ++ readByteEvents dataPin clockPin w.input (w.nreads + 1) ++
      sendACKEvents dataPin clockPin ++ readByteEvents dataPin clockPin w.input (w.nreads + 9) ++
      sendNAKEvents dataPin clockPin), ?_⟩
    simp [ackedEvents, List.append_assoc]
  | true =>
    rw [attempt_refused _ _ _ _ _ h]
    refine ⟨w.events ++ (busStartEvents dataPin clockPin ++ sendByteEvents gBytecmd dataPin clockPin ++
      checkAckEvents dataPin clockPin HIGH), ?_⟩
    simp [refusedEvents, List.append_assoc]

theorem readAByteLoop_ends_with_busStop (gBytecmd : Nat) (dataPin clockPin : Int) (fuel : Nat) :
    ∀ (l : Locals) (w : World) (v : Nat) (w' : World),
      readAByteLoop gBytecmd dataPin clockPin fuel l w = some (v, w') →
      w' = w ∨ ∃ pre, w'.events = pre ++ busStopEvents dataPin clockPin := by
  induction fuel with
  | zero =>
    intro l w v w' h
    by_cases hrun : l.statusByte ≠ 0 ∧ l.ntrysByte < 3
    · rw [readAByteLoop_zero _ _ _ _ _ hrun] at h
      cases h
    · rw [readAByteLoop_done _ _ _ _ _ _ hrun] at h
      simp only [Option.some.injEq, Prod.mk.injEq] at h
      exact Or.inl h.2.symm
  | succ fuel ih =>
    intro l w v w' h
    by_cases hrun : l.statusByte ≠ 0 ∧ l.ntrysByte < 3
    · rw [readAByteLoop_step _ _ _ _ _ _ hrun] at h
      rcases ih _ _ _ _ h with e | e
      · rw [e]
        exact Or.inr (attempt_ends_with_busStop _ _ _ _ _)
      · exact Or.inr e
    · rw [readAByteLoop_done _ _ _ _ _ _ hrun] at h
      simp only [Option.some.injEq, Prod.mk.injEq] at h
      exact Or.inl h.2.symm

theorem readAByte_idle (fuel valueByte0 checkSumByte0 gBytecmd : Nat) (dataPin clockPin : Int)
    (w : World) (v : Nat) (w' : World)
    (h : readAByte fuel valueByte0 checkSumByte0 gBytecmd dataPin clockPin w = some (v, w')) :
    Idle dataPin clockPin w'.events := by
  cases fuel with
  | zero =>
    unfold readAByte at h
    rw [readAByteLoop_zero _ _ _ _ _ (by constructor <;> simp)] at h
    cases h
  | succ fuel =>
    rw [readAByte_first_turn] at h
    rcases readAByteLoop_ends_with_busStop _ _ _ _ _ _ _ _ h with e | ⟨pre, e⟩
    · obtain ⟨pre, hp⟩ := attempt_ends_with_busStop gBytecmd dataPin clockPin
        { valueByte := valueByte0, checkSumByte := checkSumByte0, statusByte := 1,
          ntrysByte := 0 } w
      rw [e, hp]
      exact idle_of_busStop _ _ _
    · rw [e]
      exact idle_of_busStop _ _ _

theorem readTwoBytes_post {σ : Type} (P : σ → Prop) (engine : Engine σ)
    (hP : ∀ cmd s v s', engine cmd s = some (v, s') → P s')
    (lowCmd highCmd : Nat) (sentinel : ℚ) (convert : ℚ → ℚ) (s : σ) (x : ℚ) (s' : σ)
    (h : readTwoBytes lowCmd highCmd sentinel convert engine s = some (x, s')) : P s' := by
  unfold readTwoBytes at h
  cases e1 : engine lowCmd s with
  | none => simp [e1] at h
  | some r1 =>
    obtain ⟨lb, s1⟩ := r1
    cases e2 : engine gStatusByte_Cmd s1 with
    | none => simp [e1, e2] at h
    | some r2 =>
      obtain ⟨st1, s2⟩ := r2
      by_cases hst1 : st1 = 0
      · cases e3 : engine highCmd s2 with
        | none => simp [e1, e2, e3, hst1] at h
        | some r3 =>
          obtain ⟨hb, s3⟩ := r3
          cases e4 : engine gStatusByte_Cmd s3 with
          | none => simp [e1, e2, e3, e4, hst1] at h
          | some r4 =>
            obtain ⟨st2, s4⟩ := r4
            have h4 := hP _ _ _ _ e4
            by_cases hst2 : st2 = 0
            · simp [e1, e2, e3, e4, hst1, hst2] at h
              rw [← h.2]; exact h4
            · simp [e1, e2, e3, e4, hst1, hst2] at h
              rw [← h.2]; exact h4
      · have h2 := hP _ _ _ _ e2
        simp [e1, e2, hst1] at h
        rw [← h.2]; exact h2

theorem finalState_post {σ : Type} (P : σ → Prop) (engine : Engine σ)
    (hP : ∀ cmd s v s', engine cmd s = some (v, s') → P s')
    (call : PublicCall) (s s' : σ) (h : call.finalState engine s = some s') : P s' := by
  cases call with
  | readSensortype =>
    simp only [PublicCall.finalState, readSensortype] at h
    cases e1 : engine gSensorType_LBCmd s with
    | none => simp [e1] at h
    | some r1 =>
      obtain ⟨lb, s1⟩ := r1
      cases e2 : engine gSensorType_HBCmd s1 with
      | none => simp [e1, e2] at h
      | some r2 =>
        obtain ⟨hb, s2⟩ := r2
        have h2 := hP _ _ _ _ e2
        simp [e1, e2] at h
        rw [← h]; exact h2
  | readSensorparameters =>
    simp only [PublicCall.finalState, readSensorparameters] at h
    cases e1 : engine gSensorParameters_Cmd s with
    | none => simp [e1] at h
    | some r1 =>
      obtain ⟨p, s1⟩ := r1
      have h1 := hP _ _ _ _ e1
      by_cases hp : p = 0xFF
      · simp [e1, hp] at h
        rw [← h]; exact h1
      · simp [e1, hp] at h
        rw [← h]; exact h1
  | readStatusbyte =>
    simp only [PublicCall.finalState, readStatusbyte] at h
    cases e1 : engine gStatusByte_Cmd s with
    | none => simp [e1] at h
    | some r1 =>
      obtain ⟨p, s1⟩ := r1
      have h1 := hP _ _ _ _ e1
      simp [e1] at h
      rw [← h]; exact h1
  | readCO2average =>
    cases e : readCO2average engine s with
    | none => simp [PublicCall.finalState, e] at h
    | some r =>
      simp [PublicCall.finalState, e] at h
      rw [← h]
      exact readTwoBytes_post P engine hP gCO2average_LBCmd gCO2average_HBCmd (-1)
        (fun raw => raw) s r.1 r.2 e
  | readHumidity =>
    cases e : readHumidity engine s with
    | none => simp [PublicCall.finalState, e] at h
    | some r =>
      simp [PublicCall.finalState, e] at h
      rw [← h]
      exact readTwoBytes_post P engine hP gHumidity_LBCmd gHumidity_HBCmd (-1)
        (fun raw => raw / 100.0) s r.1 r.2 e
  | readTemperature =>
    cases e : readTemperature engine s with
    | none => simp [PublicCall.finalState, e] at h
    | some r =>
      simp [PublicCall.finalState, e] at h
      rw [← h]
      exact readTwoBytes_post P engine hP gTemperature_LBCmd gTemperature_HBCmd (-300)
        (fun raw => raw / 100.0 - 273.15) s r.1 r.2 e
  | readPressure =>
    cases e : readPressure engine s with
    | none => simp [PublicCall.finalState, e] at h
    | some r =>
      simp [PublicCall.finalState, e] at h
      rw [← h]
      exact readTwoBytes_post P engine hP gPressure_LBCmd gPressure_HBCmd (-1)
        (fun raw => raw / 10.0) s r.1 r.2 e

/-- C12: the bus is idle whenever the driver returns.  For every command code,
every bus behaviour, all pins, every initial content of the locals and any
fuel: if `readAByte` returns, or if a public method run on the command engine
of the driver returns, then in the log of the world it leaves behind both the
data pin and the clock pin were last configured as outputs and the level last
written to each is HIGH. -/
theorem bus_idle_on_return (fuel valueByte0 checkSumByte0 : Nat) (dataPin clockPin : Int)
    (w w' : World)
    (h : (∃ gBytecmd v,
            readAByte fuel valueByte0 checkSumByte0 gBytecmd dataPin clockPin w = some (v, w')) ∨
         (∃ call : PublicCall,
            call.finalState (driver fuel valueByte0 checkSumByte0 dataPin clockPin) w = some w')) :
    lastMode dataPin w'.events = some PinMode.OUTPUT ∧
    lastMode clockPin w'.events = some PinMode.OUTPUT ∧
    lastWrite dataPin w'.events = some HIGH ∧ lastWrite clockPin w'.events = some HIGH := by
  rcases h with ⟨c, v, h⟩ | ⟨call, h⟩
  · exact readAByte_idle _ _ _ _ _ _ _ _ _ h
  · exact finalState_post (fun w => Idle dataPin clockPin w.events)
      (driver fuel valueByte0 checkSumByte0 dataPin clockPin)
      (fun cmd s v s' hs => readAByte_idle _ _ _ _ _ _ _ _ _ hs) call w w' h

theorem bus_idle_on_return_witness :
    lastMode 2 ((World.init validStatusAnswer).afterAcked gStatusByte_Cmd 2 3).events =
        some PinMode.OUTPUT ∧
    lastMode 3 ((World.init validStatusAnswer).afterAcked gStatusByte_Cmd 2 3).events =
        some PinMode.OUTPUT ∧
    lastWrite 2 ((World.init validStatusAnswer).afterAcked gStatusByte_Cmd 2 3).events =
        some HIGH ∧
    lastWrite 3 ((World.init validStatusAnswer).afterAcked gStatusByte_Cmd 2 3).events =
        some HIGH :=
  bus_idle_on_return 1 0xFF 0xFF 2 3 (World.init validStatusAnswer)
    ((World.init validStatusAnswer).afterAcked gStatusByte_Cmd 2 3)
    (Or.inl ⟨gStatusByte_Cmd, 0, by
      unfold readAByte
      rw [turn_acked_valid _ _ _ _ _ _ (by decide) (by decide) (by decide)]
      simp only [Option.some.injEq, Prod.mk.injEq, and_true]
      decide⟩)

/-! ## The calls of an attempt -/

/-- C14: in the body of the loop of `readAByte`, whatever the locals and the
world, the level `checkAck` samples is the next level of the data line, and
the primitives entered by the attempt are, when that level is LOW
(acknowledged), busStart, sendByte(command), checkAck, readByte, sendACK,
readByte, sendNAK, busStop, and when it is HIGH (not acknowledged), busStart,
sendByte(command), checkAck, busStop, with no readByte, sendACK or sendNAK. -/
theorem attempt_call_sequence (gBytecmd : Nat) (dataPin clockPin : Int) (l : Locals)
    (w : World) :
    (checkAck dataPin clockPin
      (sendByte gBytecmd dataPin clockPin (busStart dataPin clockPin w))).1 = w.input w.nreads ∧
    (attempt gBytecmd dataPin clockPin l w).2.calls =
      w.calls ++
        (if w.input w.nreads = LOW then
          [Call.busStart, Call.sendByte gBytecmd, Call.checkAck, Call.readByte, Call.sendACK,
           Call.readByte, Call.sendNAK, Call.busStop]
        else [Call.busStart, Call.sendByte gBytecmd, Call.checkAck, Call.busStop]) := by
  constructor
  · simp [busStart_eq, sendByte_eq, checkAck_eq]
  · cases h : w.input w.nreads with
    | false => rw [attempt_acked _ _ _ _ _ h]; simp [ackedCalls]
    | true => rw [attempt_refused _ _ _ _ _ h]; simp [refusedCalls]

theorem attempt_calls (gBytecmd : Nat) (dataPin clockPin : Int) (l : Locals) (w : World) :
    (attempt gBytecmd dataPin clockPin l w).2.calls =
      w.calls ++ attemptCalls gBytecmd [w.input w.nreads] := by
  cases h : w.input w.nreads with
  | false => rw [attempt_acked _ _ _ _ _ h]; simp [attemptCalls]
  | true => rw [attempt_refused _ _ _ _ _ h]; simp [attemptCalls]

/-- The call log of a run of the loop that returns is the concatenation of
the call sequences of its attempts. -/
theorem readAByteLoop_calls (gBytecmd : Nat) (dataPin clockPin : Int) (fuel : Nat) :
    ∀ (l : Locals) (w : World) (v : Nat) (w' : World),
      readAByteLoop gBytecmd dataPin clockPin fuel l w = some (v, w') →
      ∃ acks : List Bool, w'.calls = w.calls ++ attemptCalls gBytecmd acks := by
  induction fuel with
  | zero =>
    intro l w v w' h
    by_cases hrun : l.statusByte ≠ 0 ∧ l.ntrysByte < 3
    · rw [readAByteLoop_zero _ _ _ _ _ hrun] at h
      cases h
    · rw [readAByteLoop_done _ _ _ _ _ _ hrun] at h
      simp only [Option.some.injEq, Prod.mk.injEq] at h
      exact ⟨[], by rw [← h.2]; simp [attemptCalls]⟩
  | succ fuel ih =>
    intro l w v w' h
    by_cases hrun : l.statusByte ≠ 0 ∧ l.ntrysByte < 3
    · rw [readAByteLoop_step _ _ _ _ _ _ hrun] at h
      obtain ⟨acks, e⟩ := ih _ _ _ _ h
      refine ⟨w.input w.nreads :: acks, ?_⟩
      rw [e, attempt_calls]
      simp [attemptCalls, List.append_assoc]
    · rw [readAByteLoop_done _ _ _ _ _ _ hrun] at h
      simp only [Option.some.injEq, Prod.mk.injEq] at h
      exact ⟨[], by rw [← h.2]; simp [attemptCalls]⟩

/-! ## The waveform of `sendByte` -/

theorem sendByteEvents_clockWrites (v : Nat) (dataPin clockPin : Int)
    (hpins : dataPin ≠ clockPin) :
    clockWrites clockPin (sendByteEvents v dataPin clockPin) =
      [LOW, HIGH, LOW, LOW, HIGH, LOW, LOW, HIGH, LOW, LOW, HIGH, LOW,
       LOW, HIGH, LOW, LOW, HIGH, LOW, LOW, HIGH, LOW, LOW, HIGH, LOW] := by
  simp [sendByteEvents, sendBitEvents, clockWrites, hpins]

theorem sendByteEvents_data_while_low (v : Nat) (dataPin clockPin : Int) (clock : Bool)
    (hpins : dataPin ≠ clockPin) :
    dataWrittenOnlyWhileClockLow dataPin clockPin clock (sendByteEvents v dataPin clockPin) =
      true := by
  simp [sendByteEvents, sendBitEvents, dataWrittenOnlyWhileClockLow, hpins]

theorem sendByteEvents_last (v : Nat) (dataPin clockPin : Int) (hpins : dataPin ≠ clockPin) :
    lastWrite clockPin (sendByteEvents v dataPin clockPin) = some LOW ∧
      lastWrite dataPin (sendByteEvents v dataPin clockPin) = some HIGH := by
  have h' : ¬ clockPin = dataPin := fun e => hpins e.symm
  simp [sendByteEvents, sendBitEvents, lastWrite, hpins, h']

/-- C15: for every value `v` and two distinct pins, in the log of pin events
of `sendByte v`: the clock pin is written LOW, HIGH, LOW eight times over
(eight pulses); the data-line level in force at the `k`-th rising edge of the
clock is bit `7 - k` of `v` (`k = 0..7`, most significant bit first); every
write to the data pin happens while the clock is LOW; and at the end the
clock was last written LOW and the data pin last written HIGH. -/
theorem sendByte_waveform (v : Nat) (dataPin clockPin : Int) (data clock : Bool)
    (input : Nat → Bool) (hpins : dataPin ≠ clockPin) :
    clockWrites clockPin (sendByte v dataPin clockPin (World.init input)).events =
      [LOW, HIGH, LOW, LOW, HIGH, LOW, LOW, HIGH, LOW, LOW, HIGH, LOW,
       LOW, HIGH, LOW, LOW, HIGH, LOW, LOW, HIGH, LOW, LOW, HIGH, LOW] ∧
    (clockHighLevels dataPin clockPin data clock
        (sendByte v dataPin clockPin (World.init input)).events).length = 8 ∧
    (∀ k, k < 8 →
      (clockHighLevels dataPin clockPin data clock
        (sendByte v dataPin clockPin (World.init input)).events)[k]? =
          some (v.testBit (7 - k))) ∧
    dataWrittenOnlyWhileClockLow dataPin clockPin clock
      (sendByte v dataPin clockPin (World.init input)).events = true ∧
    lastWrite clockPin (sendByte v dataPin clockPin (World.init input)).events = some LOW ∧
    lastWrite dataPin (sendByte v dataPin clockPin (World.init input)).events = some HIGH := by
  have e : (sendByte v dataPin clockPin (World.init input)).events =
      sendByteEvents v dataPin clockPin := by
    rw [sendByte_eq]; simp [World.init]
  rw [e, sendByteEvents_clockHighLevels v dataPin clockPin data clock hpins]
  refine ⟨sendByteEvents_clockWrites v dataPin clockPin hpins, rfl, ?_,
    sendByteEvents_data_while_low v dataPin clockPin clock hpins,
    sendByteEvents_last v dataPin clockPin hpins⟩
  intro k hk
  interval_cases k <;> rfl

theorem sendByte_waveform_witness :
    (clockHighLevels 2 3 HIGH HIGH (sendByte 0xA5 2 3 (World.init fun _ => LOW)).events).length
      = 8 :=
  (sendByte_waveform 0xA5 2 3 HIGH HIGH (fun _ => LOW) (by decide)).2.1

/-! ## Sentinels and valid readings -/

theorem issue_four_of {σ : Type} (engine : Engine σ) (c1 c2 c3 c4 b1 b2 b3 b4 : Nat)
    (s s1 s2 s3 s' : σ)
    (h1 : engine c1 s = some (b1, s1)) (h2 : engine c2 s1 = some (b2, s2))
    (h3 : engine c3 s2 = some (b3, s3)) (h4 : engine c4 s3 = some (b4, s')) :
    issue engine [c1, c2, c3, c4] s = some ([b1, b2, b3, b4], s') := by
  simp [issue, h1, h2, h3, h4]

/-- C16, evaluated on the code: a valid reading can be the sentinel.  When
the engine returns low byte 0xFF, high byte 0xFF and 0 for both status reads,
`readCO2average` returns -1, its sentinel; when it returns low byte 0x83, high
byte 0xF5 and 0 for both status reads, `readTemperature` returns -300, its
sentinel.  In both cases `HB*256` does not fit the 16 bits of `int` and
wraps, so the value is negative although no status check was nonzero. -/
theorem sentinel_returned_with_valid_status :
    issue replay [0xE1, 0x71, 0xF1, 0x71] [0xFF, 0, 0xFF, 0] = some ([0xFF, 0, 0xFF, 0], []) ∧
    readCO2average replay [0xFF, 0, 0xFF, 0] = some (-1, []) ∧
    issue replay [0xA1, 0x71, 0xB1, 0x71] [0x83, 0, 0xF5, 0] = some ([0x83, 0, 0xF5, 0], []) ∧
    readTemperature replay [0x83, 0, 0xF5, 0] = some (-300, []) := by
  have c : readCO2average replay [0xFF, 0, 0xFF, 0] =
      readTwoBytes 0xE1 0xF1 (-1) (fun raw => raw) replay [0xFF, 0, 0xFF, 0] := rfl
  have t : readTemperature replay [0x83, 0, 0xF5, 0] =
      readTwoBytes 0xA1 0xB1 (-300) (fun raw => raw / 100.0 - 273.15) replay
        [0x83, 0, 0xF5, 0] := rfl
  refine ⟨by decide, ?_, by decide, ?_⟩
  · rw [c, readTwoBytes_valid 0xE1 0xF1 (-1) (fun raw => raw) replay
      [0xFF, 0, 0xFF, 0] [0, 0xFF, 0] [0xFF, 0] [0] [] 0xFF 0xFF rfl rfl rfl rfl,
      int_sum_wrapped 0xFF 0xFF (by decide) (by decide) (by decide)]
    norm_num
  · rw [t, readTwoBytes_valid 0xA1 0xB1 (-300) (fun raw => raw / 100.0 - 273.15) replay
      [0x83, 0, 0xF5, 0] [0, 0xF5, 0] [0xF5, 0] [0] [] 0x83 0xF5 rfl rfl rfl rfl,
      int_sum_wrapped 0xF5 0x83 (by decide) (by decide) (by decide)]
    norm_num

/-! ## A failed transfer behind a valid status -/

/-- C17: a failed data-byte transfer is not surfaced by `readHumidity`.  On
the bus `failedLowByteBus`, with the driver on pins 2 and 3 and its unassigned
locals holding 0: the humidity low-byte command 0x81 is refused three times
and the engine returns its sentinel 0xFF; the two status reads and the
high-byte read are acknowledged with valid checksums and return 0, 0x01
and 0; and `readHumidity` returns (0x01 * 256 + 255) / 100, which is not -1.
Over any engine, the bytes 0xFF, 0, `hb`, 0 give the `int` `(hb * 256) + 255`
over 100, and that `int` is `hb * 256 + 255` when `hb` is below 0x80. -/
theorem readHumidity_hides_failed_transfer (fuel : Nat) :
    (∃ w1, readAByte (fuel + 3) 0 0 0x81 2 3 (World.init failedLowByteBus) = some (0xFF, w1) ∧
      w1.calls = refusedCalls 0x81 ++ refusedCalls 0x81 ++ refusedCalls 0x81) ∧
    (∃ w', issue (driver (fuel + 3) 0 0 2 3) [0x81, 0x71, 0x91, 0x71]
        (World.init failedLowByteBus) = some ([0xFF, 0, 0x01, 0], w') ∧
      readHumidity (driver (fuel + 3) 0 0 2 3) (World.init failedLowByteBus) =
        some ((0x01 * 256 + 255) / 100, w')) ∧
    ((0x01 * 256 + 255 : ℚ) / 100 ≠ -1) ∧
    (∀ (σ : Type) (engine : Engine σ) (s s' : σ) (hb : Nat),
      issue engine [0x81, 0x71, 0x91, 0x71] s = some ([0xFF, 0, hb, 0], s') →
      readHumidity engine s =
          some (((wrapInt (wrapInt ((hb : Int) * 256) + 255) : Int) : ℚ) / 100, s') ∧
        (hb < 128 → wrapInt (wrapInt ((hb : Int) * 256) + 255) = ((hb * 256 + 255 : Nat) : Int))) := by
  have e1 : driver (fuel + 3) 0 0 2 3 0x81 (World.init failedLowByteBus) =
      some (0xFF, (((World.init failedLowByteBus).afterRefused 0x81 2 3).afterRefused
        0x81 2 3).afterRefused 0x81 2 3) := by
    unfold driver readAByte
    rw [turn_refused_mismatch _ _ _ _ _ _ (by decide) (by decide) (by decide)]
    rw [turn_refused_mismatch _ _ _ _ _ _ (by decide) (by decide) (by decide)]
    rw [turn_refused_mismatch _ _ _ _ _ _ (by decide) (by decide) (by decide)]
    rw [readAByteLoop_done _ _ _ _ _ _ (by decide)]
  have e2 : driver (fuel + 3) 0 0 2 3 0x71 ((((World.init failedLowByteBus).afterRefused
      0x81 2 3).afterRefused 0x81 2 3).afterRefused 0x81 2 3) =
      some (0, (((((World.init failedLowByteBus).afterRefused 0x81 2 3).afterRefused
        0x81 2 3).afterRefused 0x81 2 3).afterAcked 0x71 2 3)) := by
    unfold driver readAByte
    rw [turn_acked_valid _ _ _ _ _ _ (by decide) (by decide) (by decide)]
    simp only [Option.some.injEq, Prod.mk.injEq, and_true]
    decide
  have e3 : driver (fuel + 3) 0 0 2 3 0x91 (((((World.init failedLowByteBus).afterRefused
      0x81 2 3).afterRefused 0x81 2 3).afterRefused 0x81 2 3).afterAcked 0x71 2 3) =
      some (0x01, ((((((World.init failedLowByteBus).afterRefused 0x81 2 3).afterRefused
        0x81 2 3).afterRefused 0x81 2 3).afterAcked 0x71 2 3).afterAcked 0x91 2 3)) := by
    unfold driver readAByte
    rw [turn_acked_valid _ _ _ _ _ _ (by decide) (by decide) (by decide)]
    simp only [Option.some.injEq, Prod.mk.injEq, and_true]
    decide
  have e4 : driver (fuel + 3) 0 0 2 3 0x71 ((((((World.init failedLowByteBus).afterRefused
      0x81 2 3).afterRefused 0x81 2 3).afterRefused 0x81 2 3).afterAcked 0x71 2 3).afterAcked
        0x91 2 3) =
      some (0, (((((((World.init failedLowByteBus).afterRefused 0x81 2 3).afterRefused
        0x81 2 3).afterRefused 0x81 2 3).afterAcked 0x71 2 3).afterAcked 0x91 2 3).afterAcked
          0x71 2 3)) := by
    unfold driver readAByte
    rw [turn_acked_valid _ _ _ _ _ _ (by decide) (by decide) (by decide)]
    simp only [Option.some.injEq, Prod.mk.injEq, and_true]
    decide
  refine ⟨⟨_, e1, ?_⟩, ⟨_, issue_four_of _ _ _ _ _ _ _ _ _ _ _ _ _ _ e1 e2 e3 e4, ?_⟩,
    by norm_num, ?_⟩
  · simp [World.afterRefused, World.init]
  · have e : readHumidity (driver (fuel + 3) 0 0 2 3) (World.init failedLowByteBus) =
        readTwoBytes 0x81 0x91 (-1) (fun raw => raw / 100.0) (driver (fuel + 3) 0 0 2 3)
          (World.init failedLowByteBus) := rfl
    rw [e, readTwoBytes_valid _ _ _ _ _ _ _ _ _ _ _ _ e1 e2 e3 e4,
      int_sum_in_range 0x01 0xFF (by decide) (by decide)]
    norm_num
  · intro σ engine s s' hb h
    obtain ⟨s1, s2, s3, h1, h2, h3, h4⟩ := issue_four _ _ _ _ _ _ _ _ _ _ _ h
    have e : readHumidity engine s =
        readTwoBytes 0x81 0x91 (-1) (fun raw => raw / 100.0) engine s := rfl
    refine ⟨?_, fun hhb => int_sum_in_range hb 0xFF hhb (by decide)⟩
    rw [e, readTwoBytes_valid _ _ _ _ _ _ _ _ _ _ _ _ h1 h2 h3 h4]
    norm_num

/-! ## The busy wait -/

theorem driverDelayCounts_eq (value : Nat) (dataPin clockPin : Int) (input : Nat → Bool) :
    driverDelayCounts value dataPin clockPin input =
      [30, 30, 20, 20, 20,
       10, 20, 30, 10, 20, 30, 10, 20, 30, 10, 20, 30,
       10, 20, 30, 10, 20, 30, 10, 20, 30, 10, 20, 30,
       30, 15, 15, 30, 15, 15, 30, 15, 15, 30, 15, 15,
       30, 15, 15, 30, 15, 15, 30, 15, 15, 30, 15, 15,
       30, 15, 15, 15, 15, 28, 2, 15, 15, 30] := by
  simp [driverDelayCounts, busStart_eq, busStop_eq, sendByte_eq, readByte_eq, checkAck_eq,
    sendACK_eq, sendNAK_eq, World.init, busStartEvents, busStopEvents, sendByteEvents,
    sendBitEvents, readByteEvents, readBitEvents, checkAckEvents, sendACKEvents, sendNAKEvents,
    delayCounts]

theorem predecrement_succ (bits n : Nat) (h : n + 1 < 2 ^ bits) :
    predecrement bits (n + 1) = n := by
  unfold predecrement
  have e : n + 1 + 2 ^ bits - 1 = n + 2 ^ bits := by omega
  rw [e, Nat.add_mod_right, Nat.mod_eq_of_lt (by omega)]

theorem busDelayLoop_counts (bits : Nat) (n : Nat) :
    ∀ (fuel : Nat) (r : DelayRun), n + 1 < 2 ^ bits → n + 1 ≤ fuel →
      busDelayLoop bits fuel (n + 1) r =
        some { decrements := r.decrements + (n + 1), bodies := r.bodies + n,
               wrapped := r.wrapped } := by
  induction n with
  | zero =>
    intro fuel r hlt hfuel
    obtain ⟨f, rfl⟩ : ∃ f, fuel = f + 1 := ⟨fuel - 1, by omega⟩
    simp [busDelayLoop, predecrement_succ bits 0 hlt]
  | succ n ih =>
    intro fuel r hlt hfuel
    obtain ⟨f, rfl⟩ : ∃ f, fuel = f + 1 := ⟨fuel - 1, by omega⟩
    rw [busDelayLoop]
    simp only [predecrement_succ bits (n + 1) hlt]
    rw [if_pos (by omega), ih f _ (by omega) (by omega)]
    simp
    omega

/-- C18 as stated fails: for the count 2 on a 16-bit counter the loop of
`busDelay` evaluates `--count2` 40 times, which is 2 * 20 and not 2 * 20 - 1;
it is the empty body that runs 39 times. -/
theorem busDelay_two_takes_forty_decrements :
    busDelaySteps 16 40 2 = some { decrements := 40, bodies := 39, wrapped := false } ∧
      40 ≠ 2 * DELAY_FACTOR - 1 := by
  constructor
  · have h := busDelayLoop_counts 16 39 40 { decrements := 0, bodies := 0, wrapped := false }
      (by norm_num) (by norm_num)
    simpa [busDelaySteps, DELAY_FACTOR] using h
  · decide

/-- C18, as amended: every `busDelay` call of the seven bus primitives passes
a count between 2 and 30; and for every count between 2 and 30, on an
`unsigned int` of at least 16 bits, `count * DELAY_FACTOR` lies between 40 and
600, is not 0 and does not overflow, and the loop of `busDelay` ends after
exactly `count * 20` evaluations of `--count2` (its empty body runs
`count * 20 - 1` times) without the counter wrapping around. -/
theorem busDelay_counts_and_termination (count bits fuel : Nat)
    (hlow : 2 ≤ count) (hhigh : count ≤ 30) (hbits : 16 ≤ bits) (hfuel : count * 20 ≤ fuel) :
    (∀ (value : Nat) (dataPin clockPin : Int) (input : Nat → Bool) (c : Nat),
      c ∈ driverDelayCounts value dataPin clockPin input → 2 ≤ c ∧ c ≤ 30) ∧
    40 ≤ count * DELAY_FACTOR ∧ count * DELAY_FACTOR ≤ 600 ∧
    (count % 2 ^ bits * DELAY_FACTOR) % 2 ^ bits = count * DELAY_FACTOR ∧
    count * DELAY_FACTOR ≠ 0 ∧
    busDelaySteps bits fuel count =
      some { decrements := count * 20, bodies := count * 20 - 1, wrapped := false } := by
  have hpow : 2 ^ 16 ≤ 2 ^ bits := Nat.pow_le_pow_right (by norm_num) hbits
  have h16 : (2 : Nat) ^ 16 = 65536 := by norm_num
  have hc : count % 2 ^ bits = count := Nat.mod_eq_of_lt (by omega)
  have hm : (count * 20) % 2 ^ bits = count * 20 := Nat.mod_eq_of_lt (by omega)
  refine ⟨?_, by unfold DELAY_FACTOR; omega, by unfold DELAY_FACTOR; omega, ?_,
    by unfold DELAY_FACTOR; omega, ?_⟩
  · intro value dataPin clockPin input c hmem
    rw [driverDelayCounts_eq] at hmem
    simp only [List.mem_cons, List.mem_singleton, List.not_mem_nil, or_false] at hmem
    omega
  · unfold DELAY_FACTOR
    rw [hc, hm]
  · simp only [busDelaySteps, DELAY_FACTOR, hc, hm]
    obtain ⟨n, hn⟩ : ∃ n, count * 20 = n + 1 := ⟨count * 20 - 1, by omega⟩
    rw [hn, busDelayLoop_counts bits n fuel _ (by omega) (by omega)]
    simp

theorem busDelay_counts_and_termination_witness :
    busDelaySteps 16 600 30 = some { decrements := 600, bodies := 599, wrapped := false } :=
  (busDelay_counts_and_termination 30 16 600 (by decide) (by decide) (by decide)
    (by decide)).2.2.2.2.2

end EE89x
